import Mathlib

/-!
# Primer `src/tools/convert.cpp`: the `convert` command

A shallow embedding of the conversion command of `src/tools/convert.cpp`
(namespace `Stockfish::Tools`): the extension-based dispatcher
(`ends_with`, `is_convert_of_type`, `get_convert_function`) and the command
front-end (`convert(const std::vector<std::string>&)`), followed by the
properties proved about them.

Conventions of the embedding.

* A `std::string` is a Lean `String`, read through its character list `data`.
  The source compares and searches bytes; every byte it looks for (the
  extensions, the option names, `-`, digits, signs, white space) is ASCII, and a
  character outside ASCII never equals one of them, as its bytes never do.
* The token loop `for (i = 1; i < args.size(); i++)` is a recursion on the list
  of the tokens from index `i` on: `args.at(i)` is the head of that list and
  `args.at(i + 1)` the head of its tail.
* `int` values are `Int`; the only place where the width of `int` matters is
  `std::stoi`, which is modelled with its range check.
* The effects of the command (lines written to `std::cerr` / `std::cout`, the
  `file_exists` probe, the call of a converter) are recorded as a list of
  `Event`s, in program order.
* The file system is a parameter `fs : String → Bool` telling whether opening a
  path for reading succeeds.
-/

namespace Stockfish.Tools

/-! ## Strings and `std::stoi` -/

/-- The value `plain_extension` of the source. -/
def plain_extension : String := ".plain"

/-- The value `bin_extension` of the source. -/
def bin_extension : String := ".bin"

/-- The value `binpack_extension` of the source. -/
def binpack_extension : String := ".binpack"

/-- The call `std::equal(first1, last1, first2)` on two character sequences, the
first given by `xs` and the second by `ys`: every element of `xs` is compared
with the element of `ys` at the same position.  The caller guarantees that `ys`
is at least as long as `xs`; reading past the end of `ys` is undefined in C++
and is reported here as `false`. -/
def std_equal : List Char → List Char → Bool
  | [], _ => true
  | _ :: _, [] => false
  | x :: xs, y :: ys => x == y && std_equal xs ys

/-- The function `ends_with(lhs, end)` of the source: `false` when `end` is
longer than `lhs`, otherwise `std::equal` over the reversed sequences. -/
def ends_with (lhs e : String) : Bool :=
  if e.data.length > lhs.data.length then false
  else std_equal e.data.reverse lhs.data.reverse

/-- The function `is_convert_of_type` of the source. -/
def is_convert_of_type (input_path output_path expected_input_extension
    expected_output_extension : String) : Bool :=
  ends_with input_path expected_input_extension
    && ends_with output_path expected_output_extension

/-- The two converters `get_convert_function` can return a pointer to. -/
inductive ConvertFunction where
  | convertBinpackToPlain
  | convertBinpackToBin
  deriving DecidableEq, Repr

/-- The function `get_convert_function` of the source; `none` is `nullptr`. -/
def get_convert_function (input_path output_path : String) : Option ConvertFunction :=
  if is_convert_of_type input_path output_path binpack_extension plain_extension then
    some ConvertFunction.convertBinpackToPlain
  else if is_convert_of_type input_path output_path binpack_extension bin_extension then
    some ConvertFunction.convertBinpackToBin
  else
    none

/-- The C function `isspace` in the "C" locale. -/
def isspace (c : Char) : Bool :=
  c == ' ' || c == '\t' || c == '\n' || c == '\x0b' || c == '\x0c' || c == '\r'

/-- The C function `isdigit`. -/
def isdigit (c : Char) : Bool :=
  48 ≤ c.toNat && c.toNat ≤ 57

/-- The number denoted by a sequence of decimal digits, most significant first. -/
def digits_value (ds : List Char) : Nat :=
  ds.foldl (fun acc c => 10 * acc + (c.toNat - 48)) 0

/-- The smallest `int`. -/
def INT_MIN : Int := -2147483648

/-- The largest `int`. -/
def INT_MAX : Int := 2147483647

/-- The call `std::stoi(str)` (base 10, no `pos` argument): leading white space
is skipped, an optional sign is read, then the longest run of decimal digits;
what follows the digits is ignored.  `none` stands for a thrown exception:
`std::invalid_argument` when there is no digit, `std::out_of_range` when the
value does not fit an `int`. -/
def stoi (str : String) : Option Int :=
  let r := str.data.dropWhile isspace
  let signed : Bool × List Char :=
    match r with
    | c :: t => if c = '-' then (true, t) else if c = '+' then (false, t) else (false, r)
    | [] => (false, r)
  let ds := signed.2.takeWhile isdigit
  if ds.isEmpty then none
  else
    let v : Int := if signed.1 then -(digits_value ds : Int) else (digits_value ds : Int)
    if INT_MIN ≤ v ∧ v ≤ INT_MAX then some v else none

/-- The test `s.find('-') != std::string::npos`. -/
def contains_dash (s : String) : Bool :=
  s.data.any (fun c => c == '-')

/-! ## Settings, jobs and effects -/

/-- The struct `parser_settings` (declared in `settings.h`), by its fields used
in `convert.cpp`. -/
structure parser_settings where
  filter_captures : Bool
  filter_checks : Bool
  filter_score : Bool
  max_score : Int
  filter_win : Bool
  win_filter_score : Int
  filter_loss : Bool
  loss_filter_score : Int
  position_limit : Bool
  max_pos_count : Int
  deriving DecidableEq, Repr

/-- Modelled from the spec: the default member initialisers of `parser_settings`
in `settings.h`, which is not among the sources.  The spec gives
`filterCaptures` and `filterChecks` the default `true`; the score, win, loss and
position-limit filters are described as enabled by their flags, so they start
disabled.  The numeric bounds are meaningful only when their companion boolean
is set; they start at `0`. -/
def default_settings : parser_settings where
  filter_captures := true
  filter_checks := true
  filter_score := false
  max_score := 0
  filter_win := false
  win_filter_score := 0
  filter_loss := false
  loss_filter_score := 0
  position_limit := false
  max_pos_count := 0

/-- The two values of `std::ios_base::openmode` the command uses. -/
inductive openmode where
  | app
  | trunc
  deriving DecidableEq, Repr

/-- The arguments of the call `convert(args[0], args[1], openmode, settings)`. -/
structure Job where
  input_path : String
  output_path : String
  om : openmode
  settings : parser_settings
  deriving DecidableEq, Repr

/-- An observable effect of the command. -/
inductive Event where
  /-- A line written to `std::cerr`. -/
  | cerr (msg : String)
  /-- A line written to `std::cout`. -/
  | cout (msg : String)
  /-- The probe `file_exists(name)`, which opens `name` for reading. -/
  | file_exists (name : String)
  /-- The call `func(input_path, output_path, om, settings)` of a converter. -/
  | call (func : ConvertFunction) (job : Job)
  deriving DecidableEq, Repr

/-- An event that touches the file system: the existence probe or a converter. -/
def Event.touches_files : Event → Bool
  | Event.cerr _ => false
  | Event.cout _ => false
  | Event.file_exists _ => true
  | Event.call _ _ => true

/-- The function `convert(input_path, output_path, om, settings)` of the source,
as the list of its effects. -/
def convert (fs : String → Bool) (input_path output_path : String) (om : openmode)
    (settings : parser_settings) : List Event :=
  if !fs input_path then
    [Event.file_exists input_path, Event.cerr "Input file does not exist.\n"]
  else
    match get_convert_function input_path output_path with
    | some func =>
      [Event.file_exists input_path, Event.call func ⟨input_path, output_path, om, settings⟩]
    | none =>
      [Event.file_exists input_path,
        Event.cerr "Conversion between files of these types is not supported.\n"]

/-! ## The command front-end -/

/-- The state of the token loop: the local `append` and the local `settings`. -/
abbrev LoopState := Bool × parser_settings

/-- The expression `std::stoi(args.at(i + 1))` inside its `try` block, where
`next` is the token at index `i + 1` if there is one.  `none` stands for an
exception reaching `catch (...)`: `std::out_of_range` from `at` when the token
is missing, or the exception of `std::stoi`. -/
def stoi_at (next : Option String) : Option Int :=
  match next with
  | none => none
  | some tok => stoi tok

/-- One iteration of the token loop of `convert(args)`: `tok` is `args.at(i)` and
`next` is the token at index `i + 1` if there is one.  `Except.error msg` is an
early `return` after writing `msg` to `std::cerr`. -/
def loop_body (tok : String) (next : Option String) (st : LoopState) :
    Except String LoopState :=
  if tok = "append" then
    Except.ok (true, st.2)
  else if tok = "--max-score" then
    match stoi_at next with
    | some n =>
      if n < 0 then
        Except.error "The score used for sign filtering is used as an absolute value, please use a positive number\n"
      else
        Except.ok (st.1, { st.2 with filter_score := true, max_score := n })
    | none => Except.error "Invalid number for score filtering\n"
  else if tok = "--no-filter-captures" then
    Except.ok (st.1, { st.2 with filter_captures := false })
  else if tok = "--no-filter-in-check" then
    Except.ok (st.1, { st.2 with filter_checks := false })
  else if tok = "--filter-win" then
    match stoi_at next with
    | some n => Except.ok (st.1, { st.2 with filter_win := true, win_filter_score := n })
    | none => Except.error "Invalid number for win filtering\n"
  else if tok = "--filter-loss" then
    match stoi_at next with
    | some n => Except.ok (st.1, { st.2 with filter_loss := true, loss_filter_score := n })
    | none => Except.error "Invalid number for loss filtering\n"
  else if tok = "--limit-positions" then
    match stoi_at next with
    | some n =>
      if n ≤ 0 then
        Except.error "max pos count should be a positive integer\n"
      else
        Except.ok (st.1, { st.2 with position_limit := true, max_pos_count := n })
    | none => Except.error "Invalid number for limit positions\n"
  else if contains_dash tok then
    Except.error ("Error, unrecognized option: " ++ tok ++ "\n")
  else
    Except.ok st

/-- The token loop `for (size_t i = 1; i < args.size(); i++)` of `convert(args)`,
run on the tokens from index `i` on: the head of the list is `args.at(i)` and
the head of its tail, when there is one, is `args.at(i + 1)`. -/
def token_loop : List String → LoopState → Except String LoopState
  | [], st => Except.ok st
  | tok :: rest, st =>
    match loop_body tok rest.head? st with
    | Except.error msg => Except.error msg
    | Except.ok st1 => token_loop rest st1

/-- What `convert(args)` has decided when it leaves its argument handling:
either it has returned early, having written `errors` to `std::cerr`, or it is
about to call `convert(args[0], args[1], openmode, settings)`, having written
`warnings` to `std::cout`. -/
inductive Outcome where
  | aborted (errors : List String)
  | invoked (warnings : List String) (job : Job)
  deriving DecidableEq, Repr

/-- The warnings `convert(args)` prints for the final `settings`. -/
def warnings_of (settings : parser_settings) : List String :=
  (if !(settings.filter_loss || settings.filter_win || settings.filter_captures
        || settings.filter_checks || settings.filter_score) then
      ["Warning: no filter option was selected\n"]
    else [])
  ++
  (if !(settings.filter_captures || settings.filter_checks) then
      ["Warning: Captures and in check filtering are not enabled, this will produce terrible data for NNUE\n"]
    else [])

/-- The argument handling of `convert(const std::vector<std::string>& args)`:
everything the function does before its final call of the four-argument
`convert`.  The accesses `args[0]` and `args[1]` are in range after the size
check. -/
def front_end (args : List String) : Outcome :=
  if args.length < 2 || args.length > 10 then
    Outcome.aborted
      ["Invalid arguments.\n",
        "Usage: convert from_path to_path [append] --filter-captures --filter-in-check --max-score <score>\n"]
  else
    match token_loop (args.drop 1) (false, default_settings) with
    | Except.error msg => Outcome.aborted [msg]
    | Except.ok st =>
      Outcome.invoked (warnings_of st.2)
        ⟨args.getD 0 "", args.getD 1 "", if st.1 then openmode.app else openmode.trunc, st.2⟩

/-- The function `convert(const std::vector<std::string>& args)` of the source,
as the list of its effects. -/
def convert_args (fs : String → Bool) (args : List String) : List Event :=
  match front_end args with
  | Outcome.aborted errors => errors.map Event.cerr
  | Outcome.invoked warnings job =>
    warnings.map Event.cout
      ++ convert fs job.input_path job.output_path job.om job.settings

/-! ## Vocabulary of the statements -/

/-- The option names the token loop compares a token with. -/
def known_flags : List String :=
  ["--max-score", "--no-filter-captures", "--no-filter-in-check", "--filter-win",
    "--filter-loss", "--limit-positions"]

/-- The options of the token loop that read the following token with `std::stoi`. -/
def value_flags : List String :=
  ["--max-score", "--filter-win", "--filter-loss", "--limit-positions"]

/-- A token on which the loop body returns early, whatever the state. -/
def fatal (tok : String) (next : Option String) : Prop :=
  ∀ st : LoopState, ∃ msg, loop_body tok next st = Except.error msg

/-- A token that is a non-empty run of decimal digits. -/
def is_decimal (tok : String) : Prop :=
  tok.data ≠ [] ∧ ∀ c ∈ tok.data, isdigit c = true

instance (tok : String) : Decidable (is_decimal tok) :=
  inferInstanceAs (Decidable (tok.data ≠ [] ∧ ∀ c ∈ tok.data, isdigit c = true))

/-- The tokens of an optional bare word or flag without argument: the word when
it is present, nothing otherwise. -/
def opt_flag (present : Bool) (flag : String) : List String :=
  if present then [flag] else []

/-- The tokens of an optional flag with a numeric argument: the flag followed by
its argument when it is present, nothing otherwise. -/
def opt_value (flag : String) (arg : Option String) : List String :=
  match arg with
  | some n => [flag, n]
  | none => []

/-- A command line of the documented surface form
`<inputPath> <outputPath> [append] [--max-score N] [--no-filter-captures]
[--no-filter-in-check] [--filter-win N] [--filter-loss N] [--limit-positions N]`:
the chosen optional parts, in the documented order. -/
def surface_form (inp out : String) (append : Bool) (max_score : Option String)
    (no_filter_captures no_filter_in_check : Bool)
    (filter_win filter_loss limit_positions : Option String) : List String :=
  inp :: out ::
    (opt_flag append "append"
      ++ (opt_value "--max-score" max_score
      ++ (opt_flag no_filter_captures "--no-filter-captures"
      ++ (opt_flag no_filter_in_check "--no-filter-in-check"
      ++ (opt_value "--filter-win" filter_win
      ++ (opt_value "--filter-loss" filter_loss
      ++ opt_value "--limit-positions" limit_positions))))))

/-! ## `ends_with` with its memory accesses made explicit -/

/-- The call `std::equal(first1, last1, first2)` as in `std_equal`, with the
undefined behaviour made explicit: `none` stands for a read past the end of the
second sequence; the comparison stops at the first mismatch. -/
def std_equal_checked : List Char → List Char → Option Bool
  | [], _ => some true
  | _ :: _, [] => none
  | x :: xs, y :: ys => if x == y then std_equal_checked xs ys else some false

/-- The function `ends_with(lhs, end)` of the source over `std_equal_checked`:
`none` stands for an out-of-bounds read. -/
def ends_with_checked (lhs e : String) : Option Bool :=
  if e.data.length > lhs.data.length then some false
  else std_equal_checked e.data.reverse lhs.data.reverse

/-! ## Reference dispatcher on extensions -/

/-- The part of a character sequence that starts at its last `.`, if it has one. -/
def last_dot_suffix : List Char → Option (List Char)
  | [] => none
  | c :: t =>
    match last_dot_suffix t with
    | some s => some s
    | none => if c = '.' then some (c :: t) else none

/-- The extension of a path in the words of the dispatcher's contract: the
substring starting at the last `.` character, empty when there is no `.`. -/
def extension_of (path : String) : String :=
  ⟨(last_dot_suffix path.data).getD []⟩

/-- The reference dispatcher in the words of the dispatcher's contract: it
looks only at the pair of extensions and compares them, case-sensitively, with
`.binpack`, `.plain` and `.bin`. -/
def reference_dispatch (input_path output_path : String) : Option ConvertFunction :=
  if extension_of input_path = ".binpack" ∧ extension_of output_path = ".plain" then
    some ConvertFunction.convertBinpackToPlain
  else if extension_of input_path = ".binpack" ∧ extension_of output_path = ".bin" then
    some ConvertFunction.convertBinpackToBin
  else
    none

/-! ## The streaming converters -/

/-- Modelled from the spec: the outcome tag of the game a record belongs to (the
"game context"); the record reader of `extra/nnue_data_binpack_format.h` is not
among the sources. -/
inductive GameOutcome where
  | win
  | loss
  | draw
  deriving DecidableEq, Repr

/-- Modelled from the spec: a decoded record of the packed container (declared
in `extra/nnue_data_binpack_format.h`, not among the sources): "one board
position plus associated move, evaluation score, game outcome tag, and a
flag/derivable fact of is capture / is check". -/
structure Record where
  position : String
  move : String
  score : Int
  outcome : GameOutcome
  is_capture : Bool
  in_check : Bool
  deriving DecidableEq, Repr

/-- Modelled from the spec: the filter chain of the streaming converter
(`binpack::convertBinpackToPlain` / `binpack::convertBinpackToBin`, defined in
`extra/nnue_data_binpack_format.h`, not among the sources), the AND of the
enabled predicates: capture filter active: keep only if the move is a capture;
check filter active: keep only if the side to move is not in check; score
filter active: keep only if `|score| <= maxScore`; win filter active: keep only
if not (game outcome = win and score below `winFilterScore`); loss filter
active: the symmetric suppression for losses, read as not (game outcome = loss
and score below `lossFilterScore`). -/
def passes_filters (s : parser_settings) (r : Record) : Bool :=
  (!s.filter_captures || r.is_capture)
  && (!s.filter_checks || !r.in_check)
  && (!s.filter_score || decide ((r.score.natAbs : Int) ≤ s.max_score))
  && (!s.filter_win
      || !(decide (r.outcome = GameOutcome.win) && decide (r.score < s.win_filter_score)))
  && (!s.filter_loss
      || !(decide (r.outcome = GameOutcome.loss) && decide (r.score < s.loss_filter_score)))

/-- Modelled from the spec: steps 2 to 5 of the streaming converter (defined in
`extra/nnue_data_binpack_format.h`, not among the sources).  The records are
visited in order; a record passing all active filters is written and the
running emitted-count `emitted` is incremented; if the position limit is active
and the emitted count reaches `maxPosCount`, the stream terminates immediately
and the remaining input is not consumed.  The result is the list of the records
written. -/
def stream_records (s : parser_settings) : List Record → Int → List Record
  | [], _ => []
  | r :: rest, emitted =>
    if passes_filters s r then
      if s.position_limit && decide (s.max_pos_count ≤ emitted + 1) then [r]
      else r :: stream_records s rest (emitted + 1)
    else stream_records s rest emitted

/-- Modelled from the spec: a record as written by one of the two encoders
(textual, alternate-binary), which are external collaborators; the encoding
itself is not modelled, only which encoder wrote which record. -/
inductive Encoded where
  | plain (r : Record)
  | bin (r : Record)
  deriving DecidableEq, Repr

/-- Modelled from the spec: the encoder of each converter. -/
def encode : ConvertFunction → Record → Encoded
  | ConvertFunction.convertBinpackToPlain, r => Encoded.plain r
  | ConvertFunction.convertBinpackToBin, r => Encoded.bin r

/-- Modelled from the spec: what the converter `func` selected by the
dispatcher writes for the packed records `input` under `settings` (the
converters are defined in `extra/nnue_data_binpack_format.h`, not among the
sources): the records kept by `stream_records`, each encoded by the converter's
encoder. -/
def converter_output (func : ConvertFunction) (settings : parser_settings)
    (input : List Record) : List Encoded :=
  (stream_records settings input 0).map (encode func)

/-! ## Lemmas on strings -/

theorem std_equal_iff_starts (xs ys : List Char) : std_equal xs ys = true ↔ xs <+: ys := by
  induction xs generalizing ys with
  | nil => simp [std_equal]
  | cons x xs ih =>
    cases ys with
    | nil => simp [std_equal]
    | cons y ys => simp [std_equal, ih, List.cons_prefix_cons]

theorem ends_with_iff_data_suffix (lhs e : String) :
    ends_with lhs e = true ↔ e.data <:+ lhs.data := by
  unfold ends_with
  split
  · rename_i h
    constructor
    · intro hf
      cases hf
    · intro hs
      have := hs.length_le
      omega
  · rw [std_equal_iff_starts, List.reverse_prefix]

theorem ends_with_iff_exists (lhs e : String) :
    ends_with lhs e = true ↔ ∃ p : String, lhs = p ++ e := by
  rw [ends_with_iff_data_suffix]
  constructor
  · rintro ⟨t, ht⟩
    refine ⟨⟨t⟩, ?_⟩
    apply String.ext
    simp [String.data_append, ht]
  · rintro ⟨p, rfl⟩
    exact ⟨p.data, by simp [String.data_append]⟩

theorem not_plain_and_bin (output_path : String) :
    ¬ (ends_with output_path plain_extension = true
      ∧ ends_with output_path bin_extension = true) := by
  rintro ⟨h1, h2⟩
  rw [ends_with_iff_data_suffix] at h1 h2
  obtain ⟨t1, h1⟩ := h1
  obtain ⟨t2, h2⟩ := h2
  have h := h1.trans h2.symm
  have e1 : plain_extension.data = ['.', 'p'] ++ ['l', 'a', 'i', 'n'] := rfl
  have e2 : bin_extension.data = ['.', 'b', 'i', 'n'] := rfl
  rw [e1, e2, ← List.append_assoc] at h
  have := List.append_inj_right' h rfl
  simp at this

/-! ## Lemmas on the token loop -/

theorem head?_eq_getElem?_zero (l : List String) : l.head? = l[0]? := by
  cases l <;> simp

theorem token_loop_error_of_fatal (toks : List String) (i : Nat) (tok : String)
    (hi : toks[i]? = some tok) (hf : fatal tok toks[i + 1]?) (st : LoopState) :
    ∃ msg, token_loop toks st = Except.error msg := by
  induction toks generalizing i st with
  | nil => simp at hi
  | cons t rest ih =>
    cases i with
    | zero =>
      simp only [List.getElem?_cons_zero, Option.some.injEq] at hi
      subst hi
      have hn : (t :: rest)[0 + 1]? = rest.head? := by
        rw [head?_eq_getElem?_zero]; simp
      rw [hn] at hf
      obtain ⟨msg, hmsg⟩ := hf st
      exact ⟨msg, by simp [token_loop, hmsg]⟩
    | succ k =>
      simp only [List.getElem?_cons_succ] at hi hf
      unfold token_loop
      cases hb : loop_body t rest.head? st with
      | error msg => exact ⟨msg, rfl⟩
      | ok st1 => exact ih k hi hf st1

theorem front_end_aborted_of_loop_error (args : List String) (msg : String)
    (h : token_loop (args.drop 1) (false, default_settings) = Except.error msg) :
    ∃ errors, front_end args = Outcome.aborted errors := by
  unfold front_end
  split
  · exact ⟨_, rfl⟩
  · rw [h]
    exact ⟨_, rfl⟩

theorem front_end_aborted_of_fatal (args : List String) (i : Nat) (tok : String)
    (h1 : 1 ≤ i) (hi : args[i]? = some tok) (hf : fatal tok args[i + 1]?) :
    ∃ errors, front_end args = Outcome.aborted errors := by
  obtain ⟨k, rfl⟩ : ∃ k, i = k + 1 := ⟨i - 1, by omega⟩
  have e1 : (args.drop 1)[k]? = some tok := by
    rw [List.getElem?_drop, Nat.add_comm]; exact hi
  have e2 : (args.drop 1)[k + 1]? = args[k + 1 + 1]? := by
    rw [List.getElem?_drop]; congr 1; omega
  obtain ⟨msg, hmsg⟩ :=
    token_loop_error_of_fatal (args.drop 1) k tok e1 (e2 ▸ hf) (false, default_settings)
  exact front_end_aborted_of_loop_error args msg hmsg

theorem convert_args_of_aborted (fs : String → Bool) (args : List String)
    (errors : List String) (h : front_end args = Outcome.aborted errors) :
    convert_args fs args = errors.map Event.cerr := by
  simp [convert_args, h]

theorem convert_args_of_invoked (fs : String → Bool) (args : List String)
    (warnings : List String) (job : Job) (h : front_end args = Outcome.invoked warnings job) :
    convert_args fs args = warnings.map Event.cout
      ++ convert fs job.input_path job.output_path job.om job.settings := by
  simp [convert_args, h]

theorem contains_dash_iff (tok : String) : contains_dash tok = true ↔ '-' ∈ tok.data := by
  simp [contains_dash, List.any_eq_true]

theorem ne_of_no_dash (tok flag : String) (h : '-' ∉ tok.data) (hf : '-' ∈ flag.data) :
    tok ≠ flag := by
  rintro rfl
  exact h hf

theorem loop_body_no_dash (tok : String) (next : Option String) (st : LoopState)
    (h : '-' ∉ tok.data) :
    loop_body tok next st = Except.ok (if tok = "append" then true else st.1, st.2) := by
  have h1 := ne_of_no_dash tok "--max-score" h (by decide)
  have h2 := ne_of_no_dash tok "--no-filter-captures" h (by decide)
  have h3 := ne_of_no_dash tok "--no-filter-in-check" h (by decide)
  have h4 := ne_of_no_dash tok "--filter-win" h (by decide)
  have h5 := ne_of_no_dash tok "--filter-loss" h (by decide)
  have h6 := ne_of_no_dash tok "--limit-positions" h (by decide)
  have h7 : contains_dash tok = false := by
    rw [← Bool.not_eq_true, contains_dash_iff]; exact h
  unfold loop_body
  by_cases ha : tok = "append"
  · simp [ha]
  · simp [ha, h1, h2, h3, h4, h5, h6, h7]

theorem fatal_unknown_dash (tok : String) (next : Option String) (hd : '-' ∈ tok.data)
    (hk : tok ∉ known_flags) : fatal tok next := by
  intro st
  have ha : tok ≠ "append" := by
    rintro rfl
    revert hd
    decide
  have hc : contains_dash tok = true := (contains_dash_iff tok).2 hd
  simp only [known_flags, List.mem_cons, List.mem_singleton, not_or, List.not_mem_nil,
    or_false] at hk
  obtain ⟨h1, h2, h3, h4, h5, h6⟩ := hk
  simp [loop_body, ha, h1, h2, h3, h4, h5, h6, hc]

theorem fatal_bad_number (flag : String) (next : Option String) (hf : flag ∈ value_flags)
    (hn : stoi_at next = none) : fatal flag next := by
  intro st
  simp only [value_flags, List.mem_cons, List.mem_singleton, List.not_mem_nil, or_false] at hf
  rcases hf with rfl | rfl | rfl | rfl
  · simp [loop_body, hn]
  · simp [loop_body, hn]
  · simp [loop_body, hn]
  · simp [loop_body, hn]

theorem fatal_negative_max_score (next : Option String) (n : Int)
    (hn : stoi_at next = some n) (hlt : n < 0) : fatal "--max-score" next := by
  intro st
  simp [loop_body, hn, hlt]

theorem fatal_nonpositive_limit (next : Option String) (n : Int)
    (hn : stoi_at next = some n) (hle : n ≤ 0) : fatal "--limit-positions" next := by
  intro st
  simp [loop_body, hn, hle]

theorem aborts_of_fatal (args : List String) (i : Nat) (tok : String)
    (h1 : 1 ≤ i) (hi : args[i]? = some tok) (hf : fatal tok args[i + 1]?) :
    ∃ errors, front_end args = Outcome.aborted errors
      ∧ ∀ fs, convert_args fs args = errors.map Event.cerr := by
  obtain ⟨errors, he⟩ := front_end_aborted_of_fatal args i tok h1 hi hf
  exact ⟨errors, he, fun fs => convert_args_of_aborted fs args errors he⟩

theorem loop_body_cases (tok : String) (next : Option String) (st st1 : LoopState)
    (h : loop_body tok next st = Except.ok st1) :
    (tok = "append" ∧ st1 = (true, st.2))
    ∨ (tok = "--max-score" ∧ ∃ n, stoi_at next = some n ∧ 0 ≤ n
        ∧ st1 = (st.1, { st.2 with filter_score := true, max_score := n }))
    ∨ (tok = "--no-filter-captures" ∧ st1 = (st.1, { st.2 with filter_captures := false }))
    ∨ (tok = "--no-filter-in-check" ∧ st1 = (st.1, { st.2 with filter_checks := false }))
    ∨ (tok = "--filter-win" ∧ ∃ n, stoi_at next = some n
        ∧ st1 = (st.1, { st.2 with filter_win := true, win_filter_score := n }))
    ∨ (tok = "--filter-loss" ∧ ∃ n, stoi_at next = some n
        ∧ st1 = (st.1, { st.2 with filter_loss := true, loss_filter_score := n }))
    ∨ (tok = "--limit-positions" ∧ ∃ n, stoi_at next = some n ∧ 0 < n
        ∧ st1 = (st.1, { st.2 with position_limit := true, max_pos_count := n }))
    ∨ (tok ≠ "append" ∧ tok ∉ known_flags ∧ '-' ∉ tok.data ∧ st1 = st) := by
  unfold loop_body at h
  split_ifs at h with h0 h1 h2 h3 h4 h5 h6 h7
  · left; exact ⟨h0, by cases h; rfl⟩
  · right; left
    refine ⟨h1, ?_⟩
    cases hs : stoi_at next with
    | none => rw [hs] at h; cases h
    | some n =>
      rw [hs] at h
      simp only at h
      split_ifs at h with hn
      cases h
      exact ⟨n, rfl, by omega, rfl⟩
  · right; right; left; exact ⟨h2, by cases h; rfl⟩
  · right; right; right; left; exact ⟨h3, by cases h; rfl⟩
  · right; right; right; right; left
    refine ⟨h4, ?_⟩
    cases hs : stoi_at next with
    | none => rw [hs] at h; cases h
    | some n =>
      rw [hs] at h
      cases h
      exact ⟨n, rfl, rfl⟩
  · right; right; right; right; right; left
    refine ⟨h5, ?_⟩
    cases hs : stoi_at next with
    | none => rw [hs] at h; cases h
    | some n =>
      rw [hs] at h
      cases h
      exact ⟨n, rfl, rfl⟩
  · right; right; right; right; right; right; left
    refine ⟨h6, ?_⟩
    cases hs : stoi_at next with
    | none => rw [hs] at h; cases h
    | some n =>
      rw [hs] at h
      simp only at h
      split_ifs at h with hn
      cases h
      exact ⟨n, rfl, by omega, rfl⟩
  · right; right; right; right; right; right; right
    refine ⟨h0, ?_, ?_, by cases h; rfl⟩
    · simp [known_flags, h1, h2, h3, h4, h5, h6]
    · rw [← contains_dash_iff]; simpa using h7

theorem token_loop_cons_ok (tok : String) (rest : List String) (st st2 : LoopState)
    (h : token_loop (tok :: rest) st = Except.ok st2) :
    ∃ st1, loop_body tok rest.head? st = Except.ok st1 ∧ token_loop rest st1 = Except.ok st2 := by
  unfold token_loop at h
  cases hb : loop_body tok rest.head? st with
  | error msg => rw [hb] at h; cases h
  | ok st1 => rw [hb] at h; exact ⟨st1, rfl, h⟩

/-- A boolean setting that only the option `flag` changes, and that `flag`
switches off, is on after the loop exactly when it was on before and `flag`
is not among the tokens. -/
theorem token_loop_switch_off (flag : String) (b : parser_settings → Bool)
    (hne : ∀ tok next st st1, tok ≠ flag → loop_body tok next st = Except.ok st1 →
      b st1.2 = b st.2)
    (heq : ∀ next st st1, loop_body flag next st = Except.ok st1 → b st1.2 = false)
    (toks : List String) (st st2 : LoopState) (h : token_loop toks st = Except.ok st2) :
    b st2.2 = true ↔ b st.2 = true ∧ flag ∉ toks := by
  induction toks generalizing st with
  | nil => simp only [token_loop, Except.ok.injEq] at h; subst h; simp
  | cons tok rest ih =>
    obtain ⟨st1, hb, hl⟩ := token_loop_cons_ok tok rest st st2 h
    rw [ih st1 hl]
    by_cases ht : tok = flag
    · subst ht
      simp [heq _ _ _ hb]
    · rw [hne _ _ _ _ ht hb]
      simp [Ne.symm ht]

/-- A boolean setting that only the option `flag` changes, and that `flag`
switches on, is on after the loop exactly when it was on before or `flag` is
among the tokens. -/
theorem token_loop_switch_on (flag : String) (b : parser_settings → Bool)
    (hne : ∀ tok next st st1, tok ≠ flag → loop_body tok next st = Except.ok st1 →
      b st1.2 = b st.2)
    (heq : ∀ next st st1, loop_body flag next st = Except.ok st1 → b st1.2 = true)
    (toks : List String) (st st2 : LoopState) (h : token_loop toks st = Except.ok st2) :
    b st2.2 = true ↔ b st.2 = true ∨ flag ∈ toks := by
  induction toks generalizing st with
  | nil => simp only [token_loop, Except.ok.injEq] at h; subst h; simp
  | cons tok rest ih =>
    obtain ⟨st1, hb, hl⟩ := token_loop_cons_ok tok rest st st2 h
    rw [ih st1 hl]
    by_cases ht : tok = flag
    · subst ht
      simp [heq _ _ _ hb]
    · rw [hne _ _ _ _ ht hb]
      simp [Ne.symm ht]

/-- A numeric setting that only the option `flag` changes keeps its value over
a loop whose tokens do not include `flag`. -/
theorem token_loop_bound_kept (flag : String) (g : parser_settings → Int)
    (hne : ∀ tok next st st1, tok ≠ flag → loop_body tok next st = Except.ok st1 →
      g st1.2 = g st.2)
    (toks : List String) (st st2 : LoopState) (h : token_loop toks st = Except.ok st2)
    (hn : flag ∉ toks) : g st2.2 = g st.2 := by
  induction toks generalizing st with
  | nil => simp only [token_loop, Except.ok.injEq] at h; subst h; rfl
  | cons tok rest ih =>
    obtain ⟨st1, hb, hl⟩ := token_loop_cons_ok tok rest st st2 h
    simp only [List.mem_cons, not_or] at hn
    rw [ih st1 hl hn.2, hne _ _ _ _ (Ne.symm hn.1) hb]

/-- A numeric setting that only the option `flag` changes, and that `flag`
sets to the integer read from the following token, holds after the loop the
integer read from the token following the last occurrence of `flag`. -/
theorem token_loop_bound_last (flag : String) (g : parser_settings → Int)
    (hne : ∀ tok next st st1, tok ≠ flag → loop_body tok next st = Except.ok st1 →
      g st1.2 = g st.2)
    (heq : ∀ next st st1, loop_body flag next st = Except.ok st1 →
      stoi_at next = some (g st1.2))
    (toks : List String) (st st2 : LoopState) (h : token_loop toks st = Except.ok st2)
    (i : Nat) (hi : toks[i]? = some flag) (hlast : ∀ j, i < j → toks[j]? ≠ some flag) :
    stoi_at toks[i + 1]? = some (g st2.2) := by
  induction toks generalizing st i with
  | nil => simp at hi
  | cons tok rest ih =>
    obtain ⟨st1, hb, hl⟩ := token_loop_cons_ok tok rest st st2 h
    cases i with
    | zero =>
      simp only [List.getElem?_cons_zero, Option.some.injEq] at hi
      subst hi
      have hn : tok ∉ rest := by
        intro hm
        obtain ⟨k, hk⟩ := List.mem_iff_getElem?.1 hm
        exact hlast (k + 1) (by omega) (by simpa using hk)
      rw [token_loop_bound_kept tok g hne rest st1 st2 hl hn]
      have := heq _ _ _ hb
      rw [head?_eq_getElem?_zero] at this
      simpa using this
    | succ k =>
      simp only [List.getElem?_cons_succ] at hi ⊢
      refine ih st1 hl k hi ?_
      intro j hj
      have := hlast (j + 1) (by omega)
      simpa using this

theorem loop_body_fields (tok : String) (next : Option String) (st st1 : LoopState)
    (h : loop_body tok next st = Except.ok st1) :
    ((tok ≠ "--no-filter-captures" → st1.2.filter_captures = st.2.filter_captures)
      ∧ (tok = "--no-filter-captures" → st1.2.filter_captures = false))
    ∧ ((tok ≠ "--no-filter-in-check" → st1.2.filter_checks = st.2.filter_checks)
      ∧ (tok = "--no-filter-in-check" → st1.2.filter_checks = false))
    ∧ ((tok ≠ "--max-score" → st1.2.filter_score = st.2.filter_score
          ∧ st1.2.max_score = st.2.max_score)
      ∧ (tok = "--max-score" → st1.2.filter_score = true
          ∧ stoi_at next = some st1.2.max_score ∧ 0 ≤ st1.2.max_score))
    ∧ ((tok ≠ "--filter-win" → st1.2.filter_win = st.2.filter_win
          ∧ st1.2.win_filter_score = st.2.win_filter_score)
      ∧ (tok = "--filter-win" → st1.2.filter_win = true
          ∧ stoi_at next = some st1.2.win_filter_score))
    ∧ ((tok ≠ "--filter-loss" → st1.2.filter_loss = st.2.filter_loss
          ∧ st1.2.loss_filter_score = st.2.loss_filter_score)
      ∧ (tok = "--filter-loss" → st1.2.filter_loss = true
          ∧ stoi_at next = some st1.2.loss_filter_score))
    ∧ ((tok ≠ "--limit-positions" → st1.2.position_limit = st.2.position_limit
          ∧ st1.2.max_pos_count = st.2.max_pos_count)
      ∧ (tok = "--limit-positions" → st1.2.position_limit = true
          ∧ stoi_at next = some st1.2.max_pos_count ∧ 0 < st1.2.max_pos_count)) := by
  rcases loop_body_cases tok next st st1 h with
    ⟨rfl, rfl⟩ | ⟨rfl, n, hs, hn, rfl⟩ | ⟨rfl, rfl⟩ | ⟨rfl, rfl⟩ | ⟨rfl, n, hs, rfl⟩
      | ⟨rfl, n, hs, rfl⟩ | ⟨rfl, n, hs, hn, rfl⟩ | ⟨_, hk, _, rfl⟩
  · simp
  · simp [hs, hn]
  · simp
  · simp
  · simp [hs]
  · simp [hs]
  · simp [hs, hn]
  · simp only [known_flags, List.mem_cons, List.mem_singleton, not_or, List.not_mem_nil,
      or_false] at hk
    obtain ⟨h1, h2, h3, h4, h5, h6⟩ := hk
    simp [h1, h2, h3, h4, h5, h6]

theorem front_end_invoked (args : List String) (warnings : List String) (job : Job)
    (h : front_end args = Outcome.invoked warnings job) :
    2 ≤ args.length ∧ args.length ≤ 10
    ∧ ∃ st, token_loop (args.drop 1) (false, default_settings) = Except.ok st
        ∧ warnings = warnings_of st.2
        ∧ job = ⟨args.getD 0 "", args.getD 1 "",
            if st.1 then openmode.app else openmode.trunc, st.2⟩ := by
  unfold front_end at h
  split_ifs at h with hl
  simp only [Bool.or_eq_true, decide_eq_true_eq, not_or, not_lt] at hl
  refine ⟨hl.1, hl.2, ?_⟩
  cases ht : token_loop (args.drop 1) (false, default_settings) with
  | error msg => rw [ht] at h; cases h
  | ok st =>
    rw [ht] at h
    simp only [Outcome.invoked.injEq] at h
    exact ⟨st, rfl, h.1.symm, h.2.symm⟩

theorem getElem?_eq_some_getD (args : List String) (i : Nat) (h : i < args.length) :
    args[i]? = some (args.getD i "") := by
  simp [List.getD_eq_getElem?_getD, List.getElem?_eq_getElem h]

theorem mem_drop_one_iff (args : List String) (flag : String) :
    flag ∈ args.drop 1 ↔ ∃ i, 1 ≤ i ∧ args[i]? = some flag := by
  rw [List.mem_iff_getElem?]
  constructor
  · rintro ⟨k, hk⟩
    refine ⟨k + 1, by omega, ?_⟩
    rw [List.getElem?_drop, Nat.add_comm] at hk
    exact hk
  · rintro ⟨i, h1, hi⟩
    refine ⟨i - 1, ?_⟩
    rw [List.getElem?_drop]
    have : 1 + (i - 1) = i := by omega
    rw [this]
    exact hi

theorem drop_one_bound_last (args : List String) (flag : String) (v : Int)
    (h : ∀ k, (args.drop 1)[k]? = some flag →
      (∀ j, k < j → (args.drop 1)[j]? ≠ some flag) → stoi_at (args.drop 1)[k + 1]? = some v)
    (i : Nat) (h1 : 1 ≤ i) (hi : args[i]? = some flag)
    (hlast : ∀ j, i < j → args[j]? ≠ some flag) :
    ∃ tok, args[i + 1]? = some tok ∧ stoi tok = some v := by
  obtain ⟨k, rfl⟩ : ∃ k, i = k + 1 := ⟨i - 1, by omega⟩
  have e : ∀ m, (args.drop 1)[m]? = args[m + 1]? := by
    intro m
    rw [List.getElem?_drop, Nat.add_comm]
  have := h k (by rw [e]; exact hi) (fun j hj => by rw [e]; exact hlast (j + 1) (by omega))
  rw [e] at this
  cases hn : args[k + 1 + 1]? with
  | none => rw [hn] at this; simp [stoi_at] at this
  | some tok => rw [hn] at this; exact ⟨tok, rfl, this⟩

/-! ## Decimal tokens -/

theorem isdigit_not_special (c : Char) (h : isdigit c = true) :
    isspace c = false ∧ c ≠ '-' ∧ c ≠ '+' ∧ c ≠ 'a' := by
  refine ⟨?_, ?_, ?_, ?_⟩
  · rw [← Bool.not_eq_true]
    intro hs
    simp only [isspace, Bool.or_eq_true, beq_iff_eq] at hs
    rcases hs with ((((rfl | rfl) | rfl) | rfl) | rfl) | rfl <;> revert h <;> decide
  · rintro rfl; revert h; decide
  · rintro rfl; revert h; decide
  · rintro rfl; revert h; decide

theorem stoi_of_decimal (tok : String) (hd : is_decimal tok)
    (hr : digits_value tok.data ≤ 2147483647) :
    stoi tok = some (digits_value tok.data : Int) := by
  obtain ⟨hne, hall⟩ := hd
  unfold stoi
  cases hdata : tok.data with
  | nil => exact absurd hdata hne
  | cons c t =>
    rw [hdata] at hall hr
    have hc := isdigit_not_special c (hall c (List.mem_cons_self _ _))
    have htw : (c :: t).takeWhile isdigit = c :: t := by
      rw [List.takeWhile_eq_self_iff]
      exact hall
    have hdw : (c :: t).dropWhile isspace = c :: t := by
      simp [List.dropWhile, hc.1]
    simp only [hdw, hc.2.1, hc.2.2.1, if_false, htw]
    simp only [List.isEmpty_cons, Bool.false_eq_true, if_false, INT_MIN, INT_MAX]
    rw [if_pos]
    constructor
    · omega
    · exact_mod_cast hr

theorem decimal_no_dash (tok : String) (hd : is_decimal tok) : '-' ∉ tok.data := by
  intro hm
  exact (isdigit_not_special _ (hd.2 _ hm)).2.1 rfl

theorem decimal_ne_append (tok : String) (hd : is_decimal tok) : tok ≠ "append" := by
  rintro rfl
  revert hd
  decide

theorem loop_body_decimal (tok : String) (next : Option String) (st : LoopState)
    (hd : is_decimal tok) : loop_body tok next st = Except.ok st := by
  rw [loop_body_no_dash tok next st (decimal_no_dash tok hd), if_neg (decimal_ne_append tok hd)]

/-! ## Steps of the token loop on well-formed option groups -/

theorem token_loop_no_dash (tok : String) (rest : List String) (st : LoopState)
    (h : '-' ∉ tok.data) :
    token_loop (tok :: rest) st
      = token_loop rest (if tok = "append" then true else st.1, st.2) := by
  rw [token_loop, loop_body_no_dash tok _ st h]

theorem token_loop_append (rest : List String) (st : LoopState) :
    token_loop ("append" :: rest) st = token_loop rest (true, st.2) := by
  rw [token_loop_no_dash "append" rest st (by decide)]
  simp

theorem token_loop_no_filter_captures (rest : List String) (st : LoopState) :
    token_loop ("--no-filter-captures" :: rest) st
      = token_loop rest (st.1, { st.2 with filter_captures := false }) := by
  rw [token_loop]
  simp [loop_body]

theorem token_loop_no_filter_in_check (rest : List String) (st : LoopState) :
    token_loop ("--no-filter-in-check" :: rest) st
      = token_loop rest (st.1, { st.2 with filter_checks := false }) := by
  rw [token_loop]
  simp [loop_body]

theorem token_loop_max_score (n : String) (rest : List String) (st : LoopState)
    (hd : is_decimal n) (hr : digits_value n.data ≤ 2147483647) :
    token_loop ("--max-score" :: n :: rest) st
      = token_loop rest
          (st.1, { st.2 with filter_score := true, max_score := (digits_value n.data : Int) }) := by
  rw [token_loop]
  simp only [loop_body, List.head?_cons, stoi_at, stoi_of_decimal n hd hr]
  simp only [String.reduceEq, if_false, if_true]
  rw [if_neg (by omega)]
  simp only []
  rw [token_loop, loop_body_decimal n _ _ hd]

theorem token_loop_filter_win (n : String) (rest : List String) (st : LoopState)
    (hd : is_decimal n) (hr : digits_value n.data ≤ 2147483647) :
    token_loop ("--filter-win" :: n :: rest) st
      = token_loop rest
          (st.1, { st.2 with filter_win := true,
                             win_filter_score := (digits_value n.data : Int) }) := by
  rw [token_loop]
  simp only [loop_body, List.head?_cons, stoi_at, stoi_of_decimal n hd hr]
  simp only [String.reduceEq, if_false, if_true]
  rw [token_loop, loop_body_decimal n _ _ hd]

theorem token_loop_filter_loss (n : String) (rest : List String) (st : LoopState)
    (hd : is_decimal n) (hr : digits_value n.data ≤ 2147483647) :
    token_loop ("--filter-loss" :: n :: rest) st
      = token_loop rest
          (st.1, { st.2 with filter_loss := true,
                             loss_filter_score := (digits_value n.data : Int) }) := by
  rw [token_loop]
  simp only [loop_body, List.head?_cons, stoi_at, stoi_of_decimal n hd hr]
  simp only [String.reduceEq, if_false, if_true]
  rw [token_loop, loop_body_decimal n _ _ hd]

theorem token_loop_limit_positions (n : String) (rest : List String) (st : LoopState)
    (hd : is_decimal n) (hp : 0 < digits_value n.data)
    (hr : digits_value n.data ≤ 2147483647) :
    token_loop ("--limit-positions" :: n :: rest) st
      = token_loop rest
          (st.1, { st.2 with position_limit := true,
                             max_pos_count := (digits_value n.data : Int) }) := by
  rw [token_loop]
  simp only [loop_body, List.head?_cons, stoi_at, stoi_of_decimal n hd hr]
  simp only [String.reduceEq, if_false, if_true]
  rw [if_neg (by omega)]
  simp only []
  rw [token_loop, loop_body_decimal n _ _ hd]

theorem token_loop_opt_append (present : Bool) (rest : List String) (st : LoopState) :
    token_loop (opt_flag present "append" ++ rest) st
      = token_loop rest (present || st.1, st.2) := by
  cases present
  · simp [opt_flag]
  · simp [opt_flag, token_loop_append]

theorem token_loop_opt_no_filter_captures (present : Bool) (rest : List String)
    (st : LoopState) :
    token_loop (opt_flag present "--no-filter-captures" ++ rest) st
      = token_loop rest
          (st.1, { st.2 with filter_captures := !present && st.2.filter_captures }) := by
  cases present
  · simp [opt_flag]
  · simp [opt_flag, token_loop_no_filter_captures]

theorem token_loop_opt_no_filter_in_check (present : Bool) (rest : List String)
    (st : LoopState) :
    token_loop (opt_flag present "--no-filter-in-check" ++ rest) st
      = token_loop rest
          (st.1, { st.2 with filter_checks := !present && st.2.filter_checks }) := by
  cases present
  · simp [opt_flag]
  · simp [opt_flag, token_loop_no_filter_in_check]

theorem token_loop_opt_max_score (arg : Option String) (rest : List String) (st : LoopState)
    (h : ∀ n ∈ arg, is_decimal n ∧ digits_value n.data ≤ 2147483647) :
    token_loop (opt_value "--max-score" arg ++ rest) st
      = token_loop rest
          (st.1, { st.2 with
            filter_score := arg.isSome || st.2.filter_score,
            max_score := (arg.map fun n => (digits_value n.data : Int)).getD st.2.max_score }) := by
  cases arg with
  | none => simp [opt_value]
  | some n =>
    obtain ⟨hd, hr⟩ := h n rfl
    simp [opt_value, token_loop_max_score n rest st hd hr]

theorem token_loop_opt_filter_win (arg : Option String) (rest : List String) (st : LoopState)
    (h : ∀ n ∈ arg, is_decimal n ∧ digits_value n.data ≤ 2147483647) :
    token_loop (opt_value "--filter-win" arg ++ rest) st
      = token_loop rest
          (st.1, { st.2 with
            filter_win := arg.isSome || st.2.filter_win,
            win_filter_score :=
              (arg.map fun n => (digits_value n.data : Int)).getD st.2.win_filter_score }) := by
  cases arg with
  | none => simp [opt_value]
  | some n =>
    obtain ⟨hd, hr⟩ := h n rfl
    simp [opt_value, token_loop_filter_win n rest st hd hr]

theorem token_loop_opt_filter_loss (arg : Option String) (rest : List String) (st : LoopState)
    (h : ∀ n ∈ arg, is_decimal n ∧ digits_value n.data ≤ 2147483647) :
    token_loop (opt_value "--filter-loss" arg ++ rest) st
      = token_loop rest
          (st.1, { st.2 with
            filter_loss := arg.isSome || st.2.filter_loss,
            loss_filter_score :=
              (arg.map fun n => (digits_value n.data : Int)).getD st.2.loss_filter_score }) := by
  cases arg with
  | none => simp [opt_value]
  | some n =>
    obtain ⟨hd, hr⟩ := h n rfl
    simp [opt_value, token_loop_filter_loss n rest st hd hr]

theorem token_loop_opt_limit_positions (arg : Option String) (rest : List String)
    (st : LoopState)
    (h : ∀ n ∈ arg, is_decimal n ∧ 0 < digits_value n.data ∧ digits_value n.data ≤ 2147483647) :
    token_loop (opt_value "--limit-positions" arg ++ rest) st
      = token_loop rest
          (st.1, { st.2 with
            position_limit := arg.isSome || st.2.position_limit,
            max_pos_count :=
              (arg.map fun n => (digits_value n.data : Int)).getD st.2.max_pos_count }) := by
  cases arg with
  | none => simp [opt_value]
  | some n =>
    obtain ⟨hd, hp, hr⟩ := h n rfl
    simp [opt_value, token_loop_limit_positions n rest st hd hp hr]

theorem token_loop_invariant (P : parser_settings → Prop)
    (hP : ∀ tok next st st1, loop_body tok next st = Except.ok st1 → P st.2 → P st1.2)
    (toks : List String) (st st2 : LoopState) (h : token_loop toks st = Except.ok st2)
    (h0 : P st.2) : P st2.2 := by
  induction toks generalizing st with
  | nil => simp only [token_loop, Except.ok.injEq] at h; subst h; exact h0
  | cons tok rest ih =>
    obtain ⟨st1, hb, hl⟩ := token_loop_cons_ok tok rest st st2 h
    exact ih st1 hl (hP _ _ _ _ hb h0)

/-! ## The dispatcher -/

theorem first_match_cases (x y z : Bool) (hp : ¬ (y = true ∧ z = true)) :
    ((if (x && y) = true then some ConvertFunction.convertBinpackToPlain
        else if (x && z) = true then some ConvertFunction.convertBinpackToBin else none)
        = some ConvertFunction.convertBinpackToPlain ↔ x = true ∧ y = true)
    ∧ ((if (x && y) = true then some ConvertFunction.convertBinpackToPlain
        else if (x && z) = true then some ConvertFunction.convertBinpackToBin else none)
        = some ConvertFunction.convertBinpackToBin ↔ x = true ∧ z = true)
    ∧ ((if (x && y) = true then some ConvertFunction.convertBinpackToPlain
        else if (x && z) = true then some ConvertFunction.convertBinpackToBin else none)
        = none ↔ ¬ (x = true ∧ y = true) ∧ ¬ (x = true ∧ z = true)) := by
  cases x <;> cases y <;> cases z <;> simp_all

/-- C1: `get_convert_function` returns the binpack-to-plain converter exactly
when the input path ends with `.binpack` and the output path ends with `.plain`,
the binpack-to-bin converter exactly when the input path ends with `.binpack`
and the output path ends with `.bin`, and `nullptr` (`none`) for every other
pair; being a total function it has a value on all pairs, the pair of empty
paths included, where it is `none`. -/
theorem get_convert_function_spec (input_path output_path : String) :
    (get_convert_function input_path output_path = some ConvertFunction.convertBinpackToPlain
        ↔ (∃ p : String, input_path = p ++ ".binpack") ∧ (∃ q : String, output_path = q ++ ".plain"))
    ∧ (get_convert_function input_path output_path = some ConvertFunction.convertBinpackToBin
        ↔ (∃ p : String, input_path = p ++ ".binpack") ∧ (∃ q : String, output_path = q ++ ".bin"))
    ∧ (get_convert_function input_path output_path = none
        ↔ ¬ ((∃ p : String, input_path = p ++ ".binpack") ∧ (∃ q : String, output_path = q ++ ".plain"))
          ∧ ¬ ((∃ p : String, input_path = p ++ ".binpack") ∧ (∃ q : String, output_path = q ++ ".bin")))
    ∧ get_convert_function "" "" = none := by
  have hp := not_plain_and_bin output_path
  have a : ends_with input_path binpack_extension = true
      ↔ ∃ p : String, input_path = p ++ ".binpack" := ends_with_iff_exists _ _
  have b : ends_with output_path plain_extension = true
      ↔ ∃ q : String, output_path = q ++ ".plain" := ends_with_iff_exists _ _
  have c : ends_with output_path bin_extension = true
      ↔ ∃ q : String, output_path = q ++ ".bin" := ends_with_iff_exists _ _
  rw [← a, ← b, ← c]
  exact ⟨(first_match_cases _ _ _ hp).1, (first_match_cases _ _ _ hp).2.1,
    (first_match_cases _ _ _ hp).2.2, by decide⟩

/-! ## The command front-end -/

/-- C2: when the front-end accepts a token list (it reaches the call of the
four-argument `convert`), the job it hands over has `inputPath` = token 0 and
`outputPath` = token 1, and settings in which capture filtering is on unless
`--no-filter-captures` occurs at an index >= 1, check filtering is on unless
`--no-filter-in-check` occurs at an index >= 1, the score, win, loss and
position-limit filters are enabled exactly when `--max-score`, `--filter-win`,
`--filter-loss`, `--limit-positions` occurs at an index >= 1, and each enabled
bound is the integer `std::stoi` reads from the token following the last
occurrence of its flag.  The two command lines of the claim are evaluated:
`games.binpack out.plain --no-filter-in-check` gives captures on, checks off and
no score, win, loss or limit filter; `a.binpack b.bin append --limit-positions 2`
gives the position limit on with cap 2. -/
theorem front_end_job_settings (args : List String) (warnings : List String) (job : Job)
    (h : front_end args = Outcome.invoked warnings job) :
    args[0]? = some job.input_path ∧ args[1]? = some job.output_path
    ∧ (job.settings.filter_captures = true
        ↔ ¬ ∃ i, 1 ≤ i ∧ args[i]? = some "--no-filter-captures")
    ∧ (job.settings.filter_checks = true
        ↔ ¬ ∃ i, 1 ≤ i ∧ args[i]? = some "--no-filter-in-check")
    ∧ (job.settings.filter_score = true ↔ ∃ i, 1 ≤ i ∧ args[i]? = some "--max-score")
    ∧ (job.settings.filter_win = true ↔ ∃ i, 1 ≤ i ∧ args[i]? = some "--filter-win")
    ∧ (job.settings.filter_loss = true ↔ ∃ i, 1 ≤ i ∧ args[i]? = some "--filter-loss")
    ∧ (job.settings.position_limit = true
        ↔ ∃ i, 1 ≤ i ∧ args[i]? = some "--limit-positions")
    ∧ (∀ i, 1 ≤ i → args[i]? = some "--max-score" →
        (∀ j, i < j → args[j]? ≠ some "--max-score") →
        ∃ tok, args[i + 1]? = some tok ∧ stoi tok = some job.settings.max_score)
    ∧ (∀ i, 1 ≤ i → args[i]? = some "--filter-win" →
        (∀ j, i < j → args[j]? ≠ some "--filter-win") →
        ∃ tok, args[i + 1]? = some tok ∧ stoi tok = some job.settings.win_filter_score)
    ∧ (∀ i, 1 ≤ i → args[i]? = some "--filter-loss" →
        (∀ j, i < j → args[j]? ≠ some "--filter-loss") →
        ∃ tok, args[i + 1]? = some tok ∧ stoi tok = some job.settings.loss_filter_score)
    ∧ (∀ i, 1 ≤ i → args[i]? = some "--limit-positions" →
        (∀ j, i < j → args[j]? ≠ some "--limit-positions") →
        ∃ tok, args[i + 1]? = some tok ∧ stoi tok = some job.settings.max_pos_count)
    ∧ front_end ["games.binpack", "out.plain", "--no-filter-in-check"]
        = Outcome.invoked []
            ⟨"games.binpack", "out.plain", openmode.trunc,
              { filter_captures := true, filter_checks := false, filter_score := false,
                max_score := 0, filter_win := false, win_filter_score := 0,
                filter_loss := false, loss_filter_score := 0, position_limit := false,
                max_pos_count := 0 }⟩
    ∧ front_end ["a.binpack", "b.bin", "append", "--limit-positions", "2"]
        = Outcome.invoked []
            ⟨"a.binpack", "b.bin", openmode.app,
              { filter_captures := true, filter_checks := true, filter_score := false,
                max_score := 0, filter_win := false, win_filter_score := 0,
                filter_loss := false, loss_filter_score := 0, position_limit := true,
                max_pos_count := 2 }⟩ := by
  obtain ⟨hl2, _, st, ht, _, rfl⟩ := front_end_invoked args warnings job h
  have F := fun tok next st st1 hb => loop_body_fields tok next st st1 hb
  refine ⟨?_, ?_, ?_, ?_, ?_, ?_, ?_, ?_, ?_, ?_, ?_, ?_, by decide, by decide⟩
  · exact getElem?_eq_some_getD args 0 (by omega)
  · exact getElem?_eq_some_getD args 1 (by omega)
  · rw [← mem_drop_one_iff]
    have := token_loop_switch_off "--no-filter-captures" (fun s => s.filter_captures)
      (fun tok next st st1 hne hb => (F tok next st st1 hb).1.1 hne)
      (fun next st st1 hb => (F _ next st st1 hb).1.2 rfl) _ _ _ ht
    simpa [default_settings] using this
  · rw [← mem_drop_one_iff]
    have := token_loop_switch_off "--no-filter-in-check" (fun s => s.filter_checks)
      (fun tok next st st1 hne hb => (F tok next st st1 hb).2.1.1 hne)
      (fun next st st1 hb => (F _ next st st1 hb).2.1.2 rfl) _ _ _ ht
    simpa [default_settings] using this
  · rw [← mem_drop_one_iff]
    have := token_loop_switch_on "--max-score" (fun s => s.filter_score)
      (fun tok next st st1 hne hb => ((F tok next st st1 hb).2.2.1.1 hne).1)
      (fun next st st1 hb => ((F _ next st st1 hb).2.2.1.2 rfl).1) _ _ _ ht
    simpa [default_settings] using this
  · rw [← mem_drop_one_iff]
    have := token_loop_switch_on "--filter-win" (fun s => s.filter_win)
      (fun tok next st st1 hne hb => ((F tok next st st1 hb).2.2.2.1.1 hne).1)
      (fun next st st1 hb => ((F _ next st st1 hb).2.2.2.1.2 rfl).1) _ _ _ ht
    simpa [default_settings] using this
  · rw [← mem_drop_one_iff]
    have := token_loop_switch_on "--filter-loss" (fun s => s.filter_loss)
      (fun tok next st st1 hne hb => ((F tok next st st1 hb).2.2.2.2.1.1 hne).1)
      (fun next st st1 hb => ((F _ next st st1 hb).2.2.2.2.1.2 rfl).1) _ _ _ ht
    simpa [default_settings] using this
  · rw [← mem_drop_one_iff]
    have := token_loop_switch_on "--limit-positions" (fun s => s.position_limit)
      (fun tok next st st1 hne hb => ((F tok next st st1 hb).2.2.2.2.2.1 hne).1)
      (fun next st st1 hb => ((F _ next st st1 hb).2.2.2.2.2.2 rfl).1) _ _ _ ht
    simpa [default_settings] using this
  · exact drop_one_bound_last args _ _
      (token_loop_bound_last "--max-score" (fun s => s.max_score)
        (fun tok next st st1 hne hb => ((F tok next st st1 hb).2.2.1.1 hne).2)
        (fun next st st1 hb => ((F _ next st st1 hb).2.2.1.2 rfl).2.1) _ _ _ ht)
  · exact drop_one_bound_last args _ _
      (token_loop_bound_last "--filter-win" (fun s => s.win_filter_score)
        (fun tok next st st1 hne hb => ((F tok next st st1 hb).2.2.2.1.1 hne).2)
        (fun next st st1 hb => ((F _ next st st1 hb).2.2.2.1.2 rfl).2) _ _ _ ht)
  · exact drop_one_bound_last args _ _
      (token_loop_bound_last "--filter-loss" (fun s => s.loss_filter_score)
        (fun tok next st st1 hne hb => ((F tok next st st1 hb).2.2.2.2.1.1 hne).2)
        (fun next st st1 hb => ((F _ next st st1 hb).2.2.2.2.1.2 rfl).2) _ _ _ ht)
  · exact drop_one_bound_last args _ _
      (token_loop_bound_last "--limit-positions" (fun s => s.max_pos_count)
        (fun tok next st st1 hne hb => ((F tok next st st1 hb).2.2.2.2.2.1 hne).2)
        (fun next st st1 hb => ((F _ next st st1 hb).2.2.2.2.2.2 rfl).2.1) _ _ _ ht)

/-- Witness for C2 on `a.binpack b.bin append
--limit-positions 2`: the command is accepted, the position limit is on because
the flag occurs at index 3, and the cap is the integer read from token 4. -/
theorem front_end_job_settings_witness :
    front_end ["a.binpack", "b.bin", "append", "--limit-positions", "2"]
        = Outcome.invoked []
            ⟨"a.binpack", "b.bin", openmode.app,
              { default_settings with position_limit := true, max_pos_count := 2 }⟩
    ∧ (({ default_settings with position_limit := true, max_pos_count := 2 } :
          parser_settings).position_limit = true
        ↔ ∃ i, 1 ≤ i
            ∧ ["a.binpack", "b.bin", "append", "--limit-positions", "2"][i]?
                = some "--limit-positions") :=
  ⟨by decide,
    (front_end_job_settings ["a.binpack", "b.bin", "append", "--limit-positions", "2"] []
      ⟨"a.binpack", "b.bin", openmode.app,
        { default_settings with position_limit := true, max_pos_count := 2 }⟩
      (by decide)).2.2.2.2.2.2.2.1⟩

/-- C3 (the code departs from the claim): on `in.binpack out.plain --filter-win -5`
the token `-5` is read by `std::stoi` as the integer -5, but the loop then
examines `-5` as a token of its own, finds a `-` in it and returns with
"unrecognized option"; no conversion is invoked.  The same happens for
`--filter-loss -5`. -/
theorem filter_win_loss_negative_bound_rejected :
    stoi "-5" = some (-5)
    ∧ front_end ["in.binpack", "out.plain", "--filter-win", "-5"]
        = Outcome.aborted ["Error, unrecognized option: -5\n"]
    ∧ front_end ["in.binpack", "out.plain", "--filter-loss", "-5"]
        = Outcome.aborted ["Error, unrecognized option: -5\n"]
    ∧ (∀ fs, convert_args fs ["in.binpack", "out.plain", "--filter-win", "-5"]
        = [Event.cerr "Error, unrecognized option: -5\n"])
    ∧ (∀ fs, convert_args fs ["in.binpack", "out.plain", "--filter-loss", "-5"]
        = [Event.cerr "Error, unrecognized option: -5\n"]) :=
  ⟨by decide, by decide, by decide,
    fun fs => convert_args_of_aborted fs _ ["Error, unrecognized option: -5\n"] (by decide),
    fun fs => convert_args_of_aborted fs _ ["Error, unrecognized option: -5\n"] (by decide)⟩

/-- C4 fails as stated: the two-token command `my-games.binpack out.plain` has a
token 0 that contains `-` and is not a known flag, and it is accepted: the
conversion is invoked (the loop starts at index 1 and never looks at token 0). -/
theorem dash_in_input_path_accepted :
    2 ≤ ["my-games.binpack", "out.plain"].length
    ∧ ["my-games.binpack", "out.plain"].length ≤ 10
    ∧ ["my-games.binpack", "out.plain"][0]? = some "my-games.binpack"
    ∧ '-' ∈ "my-games.binpack".data
    ∧ "my-games.binpack" ∉ known_flags
    ∧ front_end ["my-games.binpack", "out.plain"]
        = Outcome.invoked [] ⟨"my-games.binpack", "out.plain", openmode.trunc, default_settings⟩
    ∧ (∀ fs, convert_args fs ["my-games.binpack", "out.plain"]
        = convert fs "my-games.binpack" "out.plain" openmode.trunc default_settings) :=
  ⟨by decide, by decide, by decide, by decide, by decide, by decide,
    fun fs => convert_args_of_invoked fs _ []
      ⟨"my-games.binpack", "out.plain", openmode.trunc, default_settings⟩ (by decide)⟩

/-- C4, amended: for every token list (of 2 to 10 tokens, or of any other
length) and every position `i >= 1` in it (so from token 1, the output path,
on), if the token at that position contains the character `-` and is not one of
the known flags, the command returns early: it only writes error lines and
invokes no conversion. -/
theorem unknown_dash_token_aborts (args : List String) (i : Nat) (tok : String)
    (h1 : 1 ≤ i) (hi : args[i]? = some tok) (hd : '-' ∈ tok.data)
    (hk : tok ∉ known_flags) :
    ∃ errors, front_end args = Outcome.aborted errors
      ∧ ∀ fs, convert_args fs args = errors.map Event.cerr :=
  aborts_of_fatal args i tok h1 hi (fatal_unknown_dash tok _ hd hk)

/-- Witness for C4 as amended, on `a.binpack my-out.plain`: token 1 contains `-`. -/
theorem unknown_dash_token_aborts_witness :
    ∃ errors, front_end ["a.binpack", "my-out.plain"] = Outcome.aborted errors
      ∧ ∀ fs, convert_args fs ["a.binpack", "my-out.plain"] = errors.map Event.cerr :=
  unknown_dash_token_aborts ["a.binpack", "my-out.plain"] 1 "my-out.plain"
    (by decide) (by decide) (by decide) (by decide)

/-- C5 fails as stated: with all the optional parts together the command line
has 13 tokens, more than the 10 the front-end admits, and is refused as
"Invalid arguments."; and a positive decimal integer that does not fit an `int`
is refused although it is the only option (`--max-score 2147483648`). -/
theorem full_surface_form_rejected :
    surface_form "a.binpack" "b.plain" true (some "1") true true (some "1") (some "1")
        (some "1")
      = ["a.binpack", "b.plain", "append", "--max-score", "1", "--no-filter-captures",
          "--no-filter-in-check", "--filter-win", "1", "--filter-loss", "1",
          "--limit-positions", "1"]
    ∧ front_end
        (surface_form "a.binpack" "b.plain" true (some "1") true true (some "1") (some "1")
          (some "1"))
      = Outcome.aborted
          ["Invalid arguments.\n",
            "Usage: convert from_path to_path [append] --filter-captures --filter-in-check --max-score <score>\n"]
    ∧ front_end
        (surface_form "a.binpack" "b.plain" false (some "2147483648") false false none none
          none)
      = Outcome.aborted ["Invalid number for score filtering\n"] :=
  ⟨by decide, by decide, by decide⟩

/-- C5, amended: every command line of the documented surface form that has at
most 10 tokens is accepted: for every choice of optional parts in the
documented order, with a dash-free output path and every `N` a positive decimal
integer not above 2147483647, the front-end reports no argument error and
invokes the conversion on the two paths, in append mode when `append` is given
and in truncate mode when it is not (and the output path is not the word
`append`), with the settings the options describe: capture and check filtering
on unless switched off, each of the score, win, loss and position-limit filters
enabled exactly when its flag is given, with bound `N`. -/
theorem surface_form_accepted (inp out : String) (append : Bool)
    (max_score : Option String) (no_filter_captures no_filter_in_check : Bool)
    (filter_win filter_loss limit_positions : Option String)
    (hout : '-' ∉ out.data)
    (hms : ∀ n ∈ max_score,
      is_decimal n ∧ 0 < digits_value n.data ∧ digits_value n.data ≤ 2147483647)
    (hfw : ∀ n ∈ filter_win,
      is_decimal n ∧ 0 < digits_value n.data ∧ digits_value n.data ≤ 2147483647)
    (hfl : ∀ n ∈ filter_loss,
      is_decimal n ∧ 0 < digits_value n.data ∧ digits_value n.data ≤ 2147483647)
    (hlp : ∀ n ∈ limit_positions,
      is_decimal n ∧ 0 < digits_value n.data ∧ digits_value n.data ≤ 2147483647)
    (hlen : (surface_form inp out append max_score no_filter_captures no_filter_in_check
      filter_win filter_loss limit_positions).length ≤ 10) :
    ∃ warnings job,
      front_end (surface_form inp out append max_score no_filter_captures
          no_filter_in_check filter_win filter_loss limit_positions)
        = Outcome.invoked warnings job
      ∧ (∀ fs, convert_args fs (surface_form inp out append max_score no_filter_captures
          no_filter_in_check filter_win filter_loss limit_positions)
        = warnings.map Event.cout ++ convert fs inp out job.om job.settings)
      ∧ job.input_path = inp ∧ job.output_path = out
      ∧ (append = true → job.om = openmode.app)
      ∧ (append = false → out ≠ "append" → job.om = openmode.trunc)
      ∧ job.settings.filter_captures = !no_filter_captures
      ∧ job.settings.filter_checks = !no_filter_in_check
      ∧ job.settings.filter_score = max_score.isSome
      ∧ (∀ n ∈ max_score, job.settings.max_score = (digits_value n.data : Int))
      ∧ job.settings.filter_win = filter_win.isSome
      ∧ (∀ n ∈ filter_win, job.settings.win_filter_score = (digits_value n.data : Int))
      ∧ job.settings.filter_loss = filter_loss.isSome
      ∧ (∀ n ∈ filter_loss, job.settings.loss_filter_score = (digits_value n.data : Int))
      ∧ job.settings.position_limit = limit_positions.isSome
      ∧ (∀ n ∈ limit_positions, job.settings.max_pos_count = (digits_value n.data : Int)) := by
  have hloop := token_loop_opt_limit_positions limit_positions []
  simp only [List.append_nil] at hloop
  have hfront : ∃ st, token_loop
      ((surface_form inp out append max_score no_filter_captures no_filter_in_check
        filter_win filter_loss limit_positions).drop 1) (false, default_settings)
        = Except.ok st
      ∧ st.1 = (append || decide (out = "append"))
      ∧ st.2.filter_captures = !no_filter_captures
      ∧ st.2.filter_checks = !no_filter_in_check
      ∧ st.2.filter_score = max_score.isSome
      ∧ st.2.max_score = (max_score.map fun n => (digits_value n.data : Int)).getD 0
      ∧ st.2.filter_win = filter_win.isSome
      ∧ st.2.win_filter_score = (filter_win.map fun n => (digits_value n.data : Int)).getD 0
      ∧ st.2.filter_loss = filter_loss.isSome
      ∧ st.2.loss_filter_score
          = (filter_loss.map fun n => (digits_value n.data : Int)).getD 0
      ∧ st.2.position_limit = limit_positions.isSome
      ∧ st.2.max_pos_count
          = (limit_positions.map fun n => (digits_value n.data : Int)).getD 0 := by
    apply Exists.intro
    apply And.intro
    · simp only [surface_form, List.drop_succ_cons, List.drop_zero]
      rw [token_loop_no_dash out _ _ hout, token_loop_opt_append,
        token_loop_opt_max_score _ _ _ (fun n hn => ⟨(hms n hn).1, (hms n hn).2.2⟩),
        token_loop_opt_no_filter_captures, token_loop_opt_no_filter_in_check,
        token_loop_opt_filter_win _ _ _ (fun n hn => ⟨(hfw n hn).1, (hfw n hn).2.2⟩),
        token_loop_opt_filter_loss _ _ _ (fun n hn => ⟨(hfl n hn).1, (hfl n hn).2.2⟩),
        hloop _ hlp, token_loop]
    · by_cases ha : out = "append" <;> simp [ha, default_settings]
  obtain ⟨st, hst, h1, h2, h3, h4, h5, h6, h7, h8, h9, h10, h11⟩ := hfront
  have hlen2 : 2 ≤ (surface_form inp out append max_score no_filter_captures
      no_filter_in_check filter_win filter_loss limit_positions).length := by
    simp [surface_form]
  have hf : front_end (surface_form inp out append max_score no_filter_captures
        no_filter_in_check filter_win filter_loss limit_positions)
      = Outcome.invoked (warnings_of st.2)
          ⟨inp, out, if st.1 then openmode.app else openmode.trunc, st.2⟩ := by
    unfold front_end
    rw [if_neg (by simp; omega), hst]
    simp [surface_form]
  refine ⟨_, _, hf, fun fs => convert_args_of_invoked fs _ _ _ hf, rfl, rfl, ?_, ?_, h2, h3,
    h4, ?_, h6, ?_, h8, ?_, h10, ?_⟩
  · intro ha
    simp [h1, ha]
  · intro ha hne
    simp [h1, ha, hne]
  · intro n hn
    rw [Option.mem_def] at hn
    simp [h5, hn]
  · intro n hn
    rw [Option.mem_def] at hn
    simp [h7, hn]
  · intro n hn
    rw [Option.mem_def] at hn
    simp [h9, hn]
  · intro n hn
    rw [Option.mem_def] at hn
    simp [h11, hn]

/-- Witness for C5 as amended: the ten-token command line
`a.binpack b.plain append --max-score 300 --no-filter-captures --filter-win 5
--limit-positions 2`. -/
theorem surface_form_accepted_witness :
    ∃ warnings job,
      front_end (surface_form "a.binpack" "b.plain" true (some "300") true false (some "5")
          none (some "2"))
        = Outcome.invoked warnings job
      ∧ job.settings.filter_captures = false
      ∧ job.settings.filter_checks = true
      ∧ job.settings.filter_score = true
      ∧ job.settings.filter_win = true
      ∧ job.settings.filter_loss = false
      ∧ job.settings.position_limit = true := by
  obtain ⟨warnings, job, h, _, _, _, _, _, h1, h2, h3, _, h4, _, h5, _, h6, _⟩ :=
    surface_form_accepted "a.binpack" "b.plain" true (some "300") true false (some "5")
      none (some "2") (by decide) (by decide) (by decide) (by decide) (by decide) (by decide)
  exact ⟨warnings, job, h, h1, h2, h3, h4, h5, h6⟩

/-- C6: if some token at an index >= 1 is `--limit-positions` and `std::stoi`
reads an integer `n <= 0` from the following token, the command returns early:
it only writes error lines, so no file is probed and no conversion is invoked.
Consequently, whenever the conversion is invoked with `position_limit` set,
`max_pos_count > 0`. -/
theorem limit_positions_positive :
    (∀ (args : List String) (i : Nat) (tok : String) (n : Int),
      1 ≤ i → args[i]? = some "--limit-positions" → args[i + 1]? = some tok →
      stoi tok = some n → n ≤ 0 →
      ∃ errors, front_end args = Outcome.aborted errors
        ∧ ∀ fs, convert_args fs args = errors.map Event.cerr)
    ∧ (∀ (args : List String) (warnings : List String) (job : Job),
      front_end args = Outcome.invoked warnings job →
      job.settings.position_limit = true → 0 < job.settings.max_pos_count) := by
  constructor
  · intro args i tok n h1 hi hn hs hle
    refine aborts_of_fatal args i _ h1 hi ?_
    rw [hn]
    exact fatal_nonpositive_limit _ n hs hle
  · intro args warnings job h
    obtain ⟨_, _, st, ht, _, rfl⟩ := front_end_invoked args warnings job h
    refine token_loop_invariant
      (fun s => s.position_limit = true → 0 < s.max_pos_count) ?_ _ _ _ ht ?_
    · intro tok next st st1 hb hP
      have hf := (loop_body_fields tok next st st1 hb).2.2.2.2.2
      by_cases htok : tok = "--limit-positions"
      · exact fun _ => (hf.2 htok).2.2
      · rw [(hf.1 htok).1, (hf.1 htok).2]
        exact hP
    · simp [default_settings]

/-- Witness for C6: `a.binpack b.bin --limit-positions 0`
returns early, and `a.binpack b.bin append --limit-positions 2` is invoked with
a positive cap. -/
theorem limit_positions_positive_witness :
    (∃ errors,
      front_end ["a.binpack", "b.bin", "--limit-positions", "0"] = Outcome.aborted errors
        ∧ ∀ fs, convert_args fs ["a.binpack", "b.bin", "--limit-positions", "0"]
            = errors.map Event.cerr)
    ∧ (0 : Int) < 2 :=
  ⟨limit_positions_positive.1 ["a.binpack", "b.bin", "--limit-positions", "0"] 2 "0" 0
      (by decide) (by decide) (by decide) (by decide) (by decide),
    limit_positions_positive.2 ["a.binpack", "b.bin", "append", "--limit-positions", "2"] []
      ⟨"a.binpack", "b.bin", openmode.app,
        { default_settings with position_limit := true, max_pos_count := 2 }⟩
      (by decide) rfl⟩

/-- C7: if some token at an index >= 1 is `--max-score` and `std::stoi` reads an
integer `n < 0` from the following token, the command returns early: it only
writes error lines and no conversion is performed.  And `<in> <out> --max-score 0`
with a dash-free output path is accepted with the score filter enabled and
`max_score = 0` (the open mode is append only if the output path is the word
`append`); more generally so is `<in> <out> --max-score n` for every token `n`
made of decimal digits whose value fits an `int`, with `max_score` that value. -/
theorem max_score_sign :
    (∀ (args : List String) (i : Nat) (tok : String) (n : Int),
      1 ≤ i → args[i]? = some "--max-score" → args[i + 1]? = some tok →
      stoi tok = some n → n < 0 →
      ∃ errors, front_end args = Outcome.aborted errors
        ∧ ∀ fs, convert_args fs args = errors.map Event.cerr)
    ∧ (∀ (inp out : String), '-' ∉ out.data →
      front_end [inp, out, "--max-score", "0"]
        = Outcome.invoked []
            ⟨inp, out, if out = "append" then openmode.app else openmode.trunc,
              { default_settings with filter_score := true, max_score := 0 }⟩)
    ∧ (∀ (inp out n : String), '-' ∉ out.data → is_decimal n →
      digits_value n.data ≤ 2147483647 →
      front_end [inp, out, "--max-score", n]
        = Outcome.invoked []
            ⟨inp, out, if out = "append" then openmode.app else openmode.trunc,
              { default_settings with
                filter_score := true, max_score := (digits_value n.data : Int) }⟩) := by
  have general : ∀ (inp out n : String), '-' ∉ out.data → is_decimal n →
      digits_value n.data ≤ 2147483647 →
      front_end [inp, out, "--max-score", n]
        = Outcome.invoked []
            ⟨inp, out, if out = "append" then openmode.app else openmode.trunc,
              { default_settings with
                filter_score := true, max_score := (digits_value n.data : Int) }⟩ := by
    intro inp out n ho hd hr
    unfold front_end
    simp only [List.length_cons, List.length_nil, List.drop_succ_cons, List.drop_zero]
    rw [token_loop_no_dash out _ _ ho, token_loop_max_score n _ _ hd hr, token_loop]
    by_cases ha : out = "append" <;> simp [ha, warnings_of, default_settings]
  refine ⟨?_, ?_, general⟩
  · intro args i tok n h1 hi hn hs hlt
    refine aborts_of_fatal args i _ h1 hi ?_
    rw [hn]
    exact fatal_negative_max_score _ n hs hlt
  · intro inp out ho
    exact general inp out "0" ho (by decide) (by decide)

/-- Witness for C7: `a.binpack b.plain --max-score -3` returns
early, and `a.binpack b.plain --max-score 0` is accepted with bound 0. -/
theorem max_score_sign_witness :
    (∃ errors,
      front_end ["a.binpack", "b.plain", "--max-score", "-3"] = Outcome.aborted errors
        ∧ ∀ fs, convert_args fs ["a.binpack", "b.plain", "--max-score", "-3"]
            = errors.map Event.cerr)
    ∧ front_end ["a.binpack", "b.plain", "--max-score", "0"]
        = Outcome.invoked []
            ⟨"a.binpack", "b.plain",
              if "b.plain" = "append" then openmode.app else openmode.trunc,
              { default_settings with filter_score := true, max_score := 0 }⟩
    ∧ front_end ["a.binpack", "b.plain", "--max-score", "25"]
        = Outcome.invoked []
            ⟨"a.binpack", "b.plain",
              if "b.plain" = "append" then openmode.app else openmode.trunc,
              { default_settings with
                filter_score := true, max_score := (digits_value "25".data : Int) }⟩ :=
  ⟨max_score_sign.1 ["a.binpack", "b.plain", "--max-score", "-3"] 2 "-3" (-3)
      (by decide) (by decide) (by decide) (by decide) (by decide),
    max_score_sign.2.1 "a.binpack" "b.plain" (by decide),
    max_score_sign.2.2 "a.binpack" "b.plain" "25" (by decide) (by decide) (by decide)⟩

/-- C8 fails as stated: `12abc` is not a decimal integer literal, yet `std::stoi`
reads the integer 12 from it and ignores the rest, so
`a.binpack b.plain --filter-win 12abc` is accepted with the win filter set to
12; likewise for `--limit-positions 12abc`. -/
theorem trailing_characters_number_accepted :
    stoi "12abc" = some 12
    ∧ front_end ["a.binpack", "b.plain", "--filter-win", "12abc"]
        = Outcome.invoked []
            ⟨"a.binpack", "b.plain", openmode.trunc,
              { default_settings with filter_win := true, win_filter_score := 12 }⟩
    ∧ front_end ["a.binpack", "b.plain", "--limit-positions", "12abc"]
        = Outcome.invoked []
            ⟨"a.binpack", "b.plain", openmode.trunc,
              { default_settings with position_limit := true, max_pos_count := 12 }⟩ :=
  ⟨by decide, by decide, by decide⟩

/-- C8, amended: for each value-taking flag (`--max-score`, `--filter-win`,
`--filter-loss`, `--limit-positions`) occurring at an index >= 1: if the flag is
the last token, or `std::stoi` throws on the following token (after optional
white space and an optional sign it has no decimal digit, or the number its
leading digits denote does not fit a 32-bit `int`), the command returns early:
it only writes error lines and invokes no conversion. -/
theorem bad_numeric_argument_aborts (args : List String) (i : Nat) (flag : String)
    (h1 : 1 ≤ i) (hf : flag ∈ value_flags) (hi : args[i]? = some flag)
    (hbad : args[i + 1]? = none ∨ ∃ tok, args[i + 1]? = some tok ∧ stoi tok = none) :
    ∃ errors, front_end args = Outcome.aborted errors
      ∧ ∀ fs, convert_args fs args = errors.map Event.cerr := by
  refine aborts_of_fatal args i flag h1 hi (fatal_bad_number flag _ hf ?_)
  rcases hbad with hn | ⟨tok, hn, hs⟩
  · rw [hn]; rfl
  · rw [hn]; exact hs

/-- Witness for C8 as amended: a missing argument
(`a.binpack b.plain --limit-positions`), a token without digits
(`--filter-win abc`) and a number that overflows `int`
(`--max-score 2147483648`). -/
theorem bad_numeric_argument_aborts_witness :
    (∃ errors, front_end ["a.binpack", "b.plain", "--limit-positions"] = Outcome.aborted errors
      ∧ ∀ fs, convert_args fs ["a.binpack", "b.plain", "--limit-positions"]
          = errors.map Event.cerr)
    ∧ (∃ errors,
        front_end ["a.binpack", "b.plain", "--filter-win", "abc"] = Outcome.aborted errors
        ∧ ∀ fs, convert_args fs ["a.binpack", "b.plain", "--filter-win", "abc"]
            = errors.map Event.cerr)
    ∧ (∃ errors,
        front_end ["a.binpack", "b.plain", "--max-score", "2147483648"]
          = Outcome.aborted errors
        ∧ ∀ fs, convert_args fs ["a.binpack", "b.plain", "--max-score", "2147483648"]
            = errors.map Event.cerr) :=
  ⟨bad_numeric_argument_aborts ["a.binpack", "b.plain", "--limit-positions"] 2
      "--limit-positions" (by decide) (by decide) (by decide) (Or.inl (by decide)),
    bad_numeric_argument_aborts ["a.binpack", "b.plain", "--filter-win", "abc"] 2
      "--filter-win" (by decide) (by decide) (by decide)
      (Or.inr ⟨"abc", by decide, by decide⟩),
    bad_numeric_argument_aborts ["a.binpack", "b.plain", "--max-score", "2147483648"] 2
      "--max-score" (by decide) (by decide) (by decide)
      (Or.inr ⟨"2147483648", by decide, by decide⟩)⟩

/-- C9: argument errors are atomic.  Whenever the front-end returns early with
an argument error, the effects of the command are exactly the error lines on
`std::cerr`: neither the `file_exists` probe nor a converter is executed, so
the trace of file-touching effects is empty.  This covers each class of
argument error: a wrong token count, and a token at an index >= 1 on which the
loop body returns early (unrecognized option, bad, missing or out-of-range
numeric argument). -/
theorem argument_errors_touch_no_file (fs : String → Bool) (args : List String) :
    (∀ errors, front_end args = Outcome.aborted errors →
      convert_args fs args = errors.map Event.cerr
      ∧ (convert_args fs args).filter Event.touches_files = [])
    ∧ ((args.length < 2 ∨ 10 < args.length
        ∨ ∃ i tok, 1 ≤ i ∧ args[i]? = some tok ∧ fatal tok args[i + 1]?) →
      (convert_args fs args).filter Event.touches_files = []) := by
  have key : ∀ errors, front_end args = Outcome.aborted errors →
      convert_args fs args = errors.map Event.cerr
      ∧ (convert_args fs args).filter Event.touches_files = [] := by
    intro errors h
    have hc := convert_args_of_aborted fs args errors h
    refine ⟨hc, ?_⟩
    rw [hc, List.filter_eq_nil_iff]
    intro e he
    obtain ⟨m, _, rfl⟩ := List.mem_map.1 he
    simp [Event.touches_files]
  refine ⟨key, ?_⟩
  rintro (hlt | hgt | ⟨i, tok, h1, hi, hf⟩)
  · have hf : front_end args = Outcome.aborted
        ["Invalid arguments.\n",
          "Usage: convert from_path to_path [append] --filter-captures --filter-in-check --max-score <score>\n"] := by
      simp [front_end, hlt]
    exact (key _ hf).2
  · have hf : front_end args = Outcome.aborted
        ["Invalid arguments.\n",
          "Usage: convert from_path to_path [append] --filter-captures --filter-in-check --max-score <score>\n"] := by
      simp [front_end, hgt]
    exact (key _ hf).2
  · obtain ⟨errors, he⟩ := front_end_aborted_of_fatal args i tok h1 hi hf
    exact (key errors he).2

/-- Witness for C9: on `a.binpack b.plain --bogus`
with an existing input file the command writes one error line and touches no
file. -/
theorem argument_errors_touch_no_file_witness :
    front_end ["a.binpack", "b.plain", "--bogus"]
        = Outcome.aborted ["Error, unrecognized option: --bogus\n"]
    ∧ convert_args (fun _ => true) ["a.binpack", "b.plain", "--bogus"]
        = ["Error, unrecognized option: --bogus\n"].map Event.cerr
    ∧ (convert_args (fun _ => true) ["a.binpack", "b.plain", "--bogus"]).filter
        Event.touches_files = [] :=
  ⟨by decide,
    (argument_errors_touch_no_file (fun _ => true) ["a.binpack", "b.plain", "--bogus"]).1
      ["Error, unrecognized option: --bogus\n"] (by decide)⟩

/-- C10: the front-end accepts only token lists of 2 to 10 tokens.  On every
list with fewer than 2 or more than 10 tokens, whatever the tokens are, it
writes "Invalid arguments." and the usage line and invokes no conversion; and a
list of exactly 2 dash-free tokens, neither of them `append`, is accepted: the
conversion is invoked on them with truncate mode and the default settings. -/
theorem token_count_contract :
    (∀ args : List String, args.length < 2 ∨ 10 < args.length →
      front_end args = Outcome.aborted
          ["Invalid arguments.\n",
            "Usage: convert from_path to_path [append] --filter-captures --filter-in-check --max-score <score>\n"]
      ∧ ∀ fs, convert_args fs args =
          [Event.cerr "Invalid arguments.\n",
            Event.cerr "Usage: convert from_path to_path [append] --filter-captures --filter-in-check --max-score <score>\n"])
    ∧ (∀ a b : String, '-' ∉ a.data → '-' ∉ b.data → a ≠ "append" → b ≠ "append" →
      front_end [a, b] = Outcome.invoked [] ⟨a, b, openmode.trunc, default_settings⟩
      ∧ ∀ fs, convert_args fs [a, b] = convert fs a b openmode.trunc default_settings) := by
  constructor
  · intro args h
    have hf : front_end args = Outcome.aborted
        ["Invalid arguments.\n",
          "Usage: convert from_path to_path [append] --filter-captures --filter-in-check --max-score <score>\n"] := by
      rcases h with h | h <;> simp [front_end, h]
    exact ⟨hf, fun fs => convert_args_of_aborted fs args _ hf⟩
  · intro a b _ hb _ hnb
    have hf : front_end [a, b]
        = Outcome.invoked [] ⟨a, b, openmode.trunc, default_settings⟩ := by
      unfold front_end
      simp only [List.length_cons, List.length_nil, List.drop_succ_cons, List.drop_zero]
      rw [token_loop_no_dash b _ _ hb, token_loop]
      simp [hnb, warnings_of, default_settings]
    exact ⟨hf, fun fs => by rw [convert_args_of_invoked fs _ _ _ hf]; rfl⟩

/-- Witness for C10: the one-token list `a.binpack` and a
list of eleven tokens are refused, and `a.binpack b.plain` is accepted. -/
theorem token_count_contract_witness :
    front_end ["a.binpack"] = Outcome.aborted
        ["Invalid arguments.\n",
          "Usage: convert from_path to_path [append] --filter-captures --filter-in-check --max-score <score>\n"]
    ∧ front_end ["a.binpack", "b.plain", "c", "d", "e", "f", "g", "h", "i", "j", "k"]
        = Outcome.aborted
        ["Invalid arguments.\n",
          "Usage: convert from_path to_path [append] --filter-captures --filter-in-check --max-score <score>\n"]
    ∧ front_end ["a.binpack", "b.plain"]
        = Outcome.invoked [] ⟨"a.binpack", "b.plain", openmode.trunc, default_settings⟩ :=
  ⟨(token_count_contract.1 ["a.binpack"] (Or.inl (by decide))).1,
    (token_count_contract.1
      ["a.binpack", "b.plain", "c", "d", "e", "f", "g", "h", "i", "j", "k"]
      (Or.inr (by decide))).1,
    (token_count_contract.2 "a.binpack" "b.plain" (by decide) (by decide) (by decide)
      (by decide)).1⟩

/-! ## The conversion step -/

theorem get_convert_function_none_iff (input_path output_path : String) :
    get_convert_function input_path output_path = none
      ↔ ¬ ((∃ p : String, input_path = p ++ ".binpack")
            ∧ (∃ q : String, output_path = q ++ ".plain"))
        ∧ ¬ ((∃ p : String, input_path = p ++ ".binpack")
            ∧ (∃ q : String, output_path = q ++ ".bin")) := by
  have hp := not_plain_and_bin output_path
  have a : ends_with input_path binpack_extension = true
      ↔ ∃ p : String, input_path = p ++ ".binpack" := ends_with_iff_exists _ _
  have b : ends_with output_path plain_extension = true
      ↔ ∃ q : String, output_path = q ++ ".plain" := ends_with_iff_exists _ _
  have c : ends_with output_path bin_extension = true
      ↔ ∃ q : String, output_path = q ++ ".bin" := ends_with_iff_exists _ _
  rw [← a, ← b, ← c]
  exact (first_match_cases _ _ _ hp).2.2

/-- C11: for every input path, output path, open mode and settings: if the
input file does not exist, the effects of the conversion step are the existence
probe and the line "Input file does not exist." and nothing else (no dispatch,
no converter), whatever the extension pair; if the input file exists and the
dispatcher selects a converter for the pair, the effects are the existence probe
followed by one call of that converter with the same input path, output path,
open mode and settings. -/
theorem convert_existence_and_dispatch (fs : String → Bool) (input_path output_path : String)
    (om : openmode) (settings : parser_settings) :
    (fs input_path = false →
      convert fs input_path output_path om settings
        = [Event.file_exists input_path, Event.cerr "Input file does not exist.\n"])
    ∧ (fs input_path = true → ∀ func,
      get_convert_function input_path output_path = some func →
      convert fs input_path output_path om settings
        = [Event.file_exists input_path,
            Event.call func ⟨input_path, output_path, om, settings⟩]) := by
  constructor
  · intro h
    simp [convert, h]
  · intro h func hf
    simp [convert, h, hf]

/-- Witness for C11: with no file present `a.bin b.plain` (an unsupported pair)
reports the missing input; with the input present, `a.binpack b.plain` calls
the binpack-to-plain converter once. -/
theorem convert_existence_and_dispatch_witness :
    convert (fun _ => false) "a.bin" "b.plain" openmode.trunc default_settings
        = [Event.file_exists "a.bin", Event.cerr "Input file does not exist.\n"]
    ∧ convert (fun _ => true) "a.binpack" "b.plain" openmode.trunc default_settings
        = [Event.file_exists "a.binpack",
            Event.call ConvertFunction.convertBinpackToPlain
              ⟨"a.binpack", "b.plain", openmode.trunc, default_settings⟩] :=
  ⟨(convert_existence_and_dispatch (fun _ => false) "a.bin" "b.plain" openmode.trunc
      default_settings).1 rfl,
    (convert_existence_and_dispatch (fun _ => true) "a.binpack" "b.plain" openmode.trunc
      default_settings).2 rfl ConvertFunction.convertBinpackToPlain (by decide)⟩

/-- C12: for every pair of paths that is not one of the two supported pairs
(input ending with `.binpack` and output ending with `.plain` or with `.bin`),
the conversion step calls no converter, so it creates no output file, and it
writes an error line: "Conversion between files of these types is not
supported." when the input file exists, "Input file does not exist."
otherwise. -/
theorem unsupported_pair_no_converter (fs : String → Bool) (input_path output_path : String)
    (om : openmode) (settings : parser_settings)
    (h1 : ¬ ((∃ p : String, input_path = p ++ ".binpack")
      ∧ (∃ q : String, output_path = q ++ ".plain")))
    (h2 : ¬ ((∃ p : String, input_path = p ++ ".binpack")
      ∧ (∃ q : String, output_path = q ++ ".bin"))) :
    (∀ func job, Event.call func job ∉ convert fs input_path output_path om settings)
    ∧ (fs input_path = true →
      convert fs input_path output_path om settings
        = [Event.file_exists input_path,
            Event.cerr "Conversion between files of these types is not supported.\n"])
    ∧ (fs input_path = false →
      convert fs input_path output_path om settings
        = [Event.file_exists input_path, Event.cerr "Input file does not exist.\n"]) := by
  have hn := (get_convert_function_none_iff input_path output_path).2 ⟨h1, h2⟩
  refine ⟨?_, ?_, ?_⟩
  · intro func job
    cases hfs : fs input_path <;> simp [convert, hfs, hn]
  · intro hfs
    simp [convert, hfs, hn]
  · intro hfs
    simp [convert, hfs]

/-- Witness for C12: the pair `a.bin`, `b.plain` with the input file present. -/
theorem unsupported_pair_no_converter_witness :
    (∀ func job, Event.call func job
      ∉ convert (fun _ => true) "a.bin" "b.plain" openmode.trunc default_settings)
    ∧ convert (fun _ => true) "a.bin" "b.plain" openmode.trunc default_settings
        = [Event.file_exists "a.bin",
            Event.cerr "Conversion between files of these types is not supported.\n"] :=
  have h := unsupported_pair_no_converter (fun _ => true) "a.bin" "b.plain" openmode.trunc
    default_settings
    (fun h => absurd ((ends_with_iff_exists "a.bin" ".binpack").2 h.1) (by decide))
    (fun h => absurd ((ends_with_iff_exists "a.bin" ".binpack").2 h.1) (by decide))
  ⟨h.1, h.2.1 rfl⟩

/-! ## `ends_with` -/

theorem std_equal_checked_eq (xs ys : List Char) (h : xs.length ≤ ys.length) :
    std_equal_checked xs ys = some (std_equal xs ys) := by
  induction xs generalizing ys with
  | nil => rfl
  | cons x xs ih =>
    cases ys with
    | nil => simp at h
    | cons y ys =>
      simp only [List.length_cons, Nat.add_le_add_iff_right] at h
      by_cases hxy : x = y
      · simp [std_equal_checked, std_equal, hxy, ih ys h]
      · simp [std_equal_checked, std_equal, hxy]

/-- C19: for all strings `lhs` and `end`, `ends_with(lhs, end)` returns true if
and only if `end` is a suffix of `lhs` (there is a string `p` with
`lhs = p ++ end`); it never reads out of bounds (the version with explicit
memory accesses always has a value, the same one); it returns false when `end`
is longer than `lhs`, and true when `end` is empty. -/
theorem ends_with_spec (lhs e : String) :
    (ends_with lhs e = true ↔ ∃ p : String, lhs = p ++ e)
    ∧ ends_with_checked lhs e = some (ends_with lhs e)
    ∧ (lhs.length < e.length →
        ends_with lhs e = false ∧ ends_with_checked lhs e = some false)
    ∧ ends_with lhs "" = true := by
  refine ⟨ends_with_iff_exists lhs e, ?_, ?_, ?_⟩
  · unfold ends_with_checked ends_with
    split
    · rfl
    · rename_i h
      exact std_equal_checked_eq _ _ (by simpa using h)
  · intro h
    have h2 : e.data.length > lhs.data.length := h
    unfold ends_with ends_with_checked
    rw [if_pos h2, if_pos h2]
    exact ⟨rfl, rfl⟩
  · rw [ends_with_iff_exists]
    exact ⟨lhs, by simp⟩

/-- Witness for C19: `.binpack` is longer than `a.b`, so `ends_with` is false
there and reads nothing out of bounds. -/
theorem ends_with_spec_witness :
    ends_with "a.b" ".binpack" = false ∧ ends_with_checked "a.b" ".binpack" = some false :=
  (ends_with_spec "a.b" ".binpack").2.2.1 (by decide)

/-! ## Dispatch on extensions -/

theorem last_dot_suffix_eq_none_iff (l : List Char) :
    last_dot_suffix l = none ↔ '.' ∉ l := by
  induction l with
  | nil => simp [last_dot_suffix]
  | cons c t ih =>
    unfold last_dot_suffix
    cases h : last_dot_suffix t with
    | none =>
      have ht := ih.1 h
      by_cases hc : c = '.'
      · simp [hc]
      · simp [hc, ht, Ne.symm hc]
    | some s =>
      have ht : ¬ ('.' ∉ t) := fun hn => by
        rw [ih.2 hn] at h
        cases h
      simp only [List.mem_cons, not_or]
      constructor
      · intro hf
        cases hf
      · intro hf
        exact absurd hf.2 ht

theorem last_dot_suffix_eq_some_iff (r : List Char) (hr : '.' ∉ r) (l : List Char) :
    last_dot_suffix l = some ('.' :: r) ↔ ('.' :: r) <:+ l := by
  induction l with
  | nil => simp [last_dot_suffix]
  | cons c t ih =>
    rw [List.suffix_cons_iff]
    unfold last_dot_suffix
    cases h : last_dot_suffix t with
    | none =>
      have hnot : ¬ (('.' :: r) <:+ t) := by
        rw [← ih, h]
        simp
      have hdot : '.' ∉ t := (last_dot_suffix_eq_none_iff t).1 h
      by_cases hc : c = '.'
      · subst hc
        simp [hnot, eq_comm]
      · simp only [hc, if_false]
        constructor
        · intro hf
          cases hf
        · rintro (hf | hf)
          · simp only [List.cons.injEq] at hf
            exact absurd hf.1.symm hc
          · exact absurd hf hnot
    | some s =>
      rw [h] at ih
      simp only
      constructor
      · intro hs
        exact Or.inr (ih.1 hs)
      · rintro (hf | hf)
        · simp only [List.cons.injEq] at hf
          have hdot : '.' ∉ t := hf.2 ▸ hr
          rw [(last_dot_suffix_eq_none_iff t).2 hdot] at h
          cases h
        · exact ih.2 hf

theorem extension_of_eq_iff (path e : String) (r : List Char) (he : e.data = '.' :: r)
    (hr : '.' ∉ r) : extension_of path = e ↔ ends_with path e = true := by
  rw [ends_with_iff_data_suffix, he, ← last_dot_suffix_eq_some_iff r hr]
  unfold extension_of
  constructor
  · intro h
    have hd : (last_dot_suffix path.data).getD [] = '.' :: r := by
      rw [← he, ← h]
    cases hl : last_dot_suffix path.data with
    | none => rw [hl] at hd; simp at hd
    | some s => rw [hl] at hd; simpa using hd
  · intro h
    apply String.ext
    rw [h, he]
    rfl

/-- C16: dispatch is decided by the case-sensitive pair of file extensions: for
every input path and output path, `get_convert_function` gives the result of the
reference dispatcher, which takes the extension of a path to be its substring
starting at the last `.` (empty when there is none) and compares it with
`.binpack`, `.plain` and `.bin`; so two pairs of paths with the same pair of
extensions get the same result, and `.BINPACK` or `.Plain` select nothing. -/
theorem get_convert_function_by_extension (input_path output_path : String) :
    get_convert_function input_path output_path = reference_dispatch input_path output_path
    ∧ (∀ input_path2 output_path2 : String,
        extension_of input_path = extension_of input_path2 →
        extension_of output_path = extension_of output_path2 →
        get_convert_function input_path output_path
          = get_convert_function input_path2 output_path2)
    ∧ get_convert_function "games.BINPACK" "out.plain" = none
    ∧ get_convert_function "games.binpack" "out.Plain" = none := by
  have key : ∀ i o : String, get_convert_function i o = reference_dispatch i o := by
    intro i o
    have a : extension_of i = ".binpack" ↔ ends_with i binpack_extension = true :=
      extension_of_eq_iff i ".binpack" _ rfl (by decide)
    have b : extension_of o = ".plain" ↔ ends_with o plain_extension = true :=
      extension_of_eq_iff o ".plain" _ rfl (by decide)
    have c : extension_of o = ".bin" ↔ ends_with o bin_extension = true :=
      extension_of_eq_iff o ".bin" _ rfl (by decide)
    simp only [get_convert_function, is_convert_of_type, reference_dispatch, a, b, c,
      Bool.and_eq_true]
  refine ⟨key _ _, ?_, by decide, by decide⟩
  intro i2 o2 hi ho
  rw [key, key]
  simp only [reference_dispatch, hi, ho]

/-- Witness for C16: `a.binpack`, `b.plain` and `dir.d/x.binpack`, `y.z.plain`
have the same pair of extensions and select the same converter. -/
theorem get_convert_function_by_extension_witness :
    get_convert_function "a.binpack" "b.plain"
      = get_convert_function "dir.d/x.binpack" "y.z.plain" :=
  (get_convert_function_by_extension "a.binpack" "b.plain").2.1 "dir.d/x.binpack" "y.z.plain"
    (by decide) (by decide)

/-! ## Open mode, warnings and trailing tokens -/

theorem loop_body_append_flag (tok : String) (next : Option String) (st st1 : LoopState)
    (h : loop_body tok next st = Except.ok st1) :
    st1.1 = true ↔ st.1 = true ∨ tok = "append" := by
  rcases loop_body_cases tok next st st1 h with
    ⟨rfl, rfl⟩ | ⟨rfl, n, hs, hn, rfl⟩ | ⟨rfl, rfl⟩ | ⟨rfl, rfl⟩ | ⟨rfl, n, hs, rfl⟩
      | ⟨rfl, n, hs, rfl⟩ | ⟨rfl, n, hs, hn, rfl⟩ | ⟨ha, _, _, rfl⟩
  · simp
  · simp
  · simp
  · simp
  · simp
  · simp
  · simp
  · simp [ha]

theorem token_loop_append_flag (toks : List String) (st st2 : LoopState)
    (h : token_loop toks st = Except.ok st2) :
    st2.1 = true ↔ st.1 = true ∨ "append" ∈ toks := by
  induction toks generalizing st with
  | nil => simp only [token_loop, Except.ok.injEq] at h; subst h; simp
  | cons tok rest ih =>
    obtain ⟨st1, hb, hl⟩ := token_loop_cons_ok tok rest st st2 h
    rw [ih st1 hl, loop_body_append_flag tok _ st st1 hb, List.mem_cons, or_assoc]
    constructor
    · rintro (h1 | h2 | h3)
      · exact Or.inl h1
      · exact Or.inr (Or.inl h2.symm)
      · exact Or.inr (Or.inr h3)
    · rintro (h1 | h2 | h3)
      · exact Or.inl h1
      · exact Or.inr (Or.inl h2.symm)
      · exact Or.inr (Or.inr h3)

/-- The filter switches of an accepted command in terms of the flags given at an
index >= 1. -/
theorem front_end_filter_flags (args : List String) (warnings : List String) (job : Job)
    (h : front_end args = Outcome.invoked warnings job) :
    (job.settings.filter_captures = true
        ↔ ¬ ∃ i, 1 ≤ i ∧ args[i]? = some "--no-filter-captures")
    ∧ (job.settings.filter_checks = true
        ↔ ¬ ∃ i, 1 ≤ i ∧ args[i]? = some "--no-filter-in-check")
    ∧ (job.settings.filter_score = true ↔ ∃ i, 1 ≤ i ∧ args[i]? = some "--max-score")
    ∧ (job.settings.filter_win = true ↔ ∃ i, 1 ≤ i ∧ args[i]? = some "--filter-win")
    ∧ (job.settings.filter_loss = true ↔ ∃ i, 1 ≤ i ∧ args[i]? = some "--filter-loss") := by
  obtain ⟨_, _, st, ht, _, rfl⟩ := front_end_invoked args warnings job h
  have F := fun tok next st st1 hb => loop_body_fields tok next st st1 hb
  refine ⟨?_, ?_, ?_, ?_, ?_⟩
  · rw [← mem_drop_one_iff]
    have := token_loop_switch_off "--no-filter-captures" (fun s => s.filter_captures)
      (fun tok next st st1 hne hb => (F tok next st st1 hb).1.1 hne)
      (fun next st st1 hb => (F _ next st st1 hb).1.2 rfl) _ _ _ ht
    simpa [default_settings] using this
  · rw [← mem_drop_one_iff]
    have := token_loop_switch_off "--no-filter-in-check" (fun s => s.filter_checks)
      (fun tok next st st1 hne hb => (F tok next st st1 hb).2.1.1 hne)
      (fun next st st1 hb => (F _ next st st1 hb).2.1.2 rfl) _ _ _ ht
    simpa [default_settings] using this
  · rw [← mem_drop_one_iff]
    have := token_loop_switch_on "--max-score" (fun s => s.filter_score)
      (fun tok next st st1 hne hb => ((F tok next st st1 hb).2.2.1.1 hne).1)
      (fun next st st1 hb => ((F _ next st st1 hb).2.2.1.2 rfl).1) _ _ _ ht
    simpa [default_settings] using this
  · rw [← mem_drop_one_iff]
    have := token_loop_switch_on "--filter-win" (fun s => s.filter_win)
      (fun tok next st st1 hne hb => ((F tok next st st1 hb).2.2.2.1.1 hne).1)
      (fun next st st1 hb => ((F _ next st st1 hb).2.2.2.1.2 rfl).1) _ _ _ ht
    simpa [default_settings] using this
  · rw [← mem_drop_one_iff]
    have := token_loop_switch_on "--filter-loss" (fun s => s.filter_loss)
      (fun tok next st st1 hne hb => ((F tok next st st1 hb).2.2.2.2.1.1 hne).1)
      (fun next st st1 hb => ((F _ next st st1 hb).2.2.2.2.1.2 rfl).1) _ _ _ ht
    simpa [default_settings] using this

theorem first_warning_mem_iff (s : parser_settings) :
    "Warning: no filter option was selected\n" ∈ warnings_of s
      ↔ s.filter_loss = false ∧ s.filter_win = false ∧ s.filter_captures = false
        ∧ s.filter_checks = false ∧ s.filter_score = false := by
  unfold warnings_of
  cases s.filter_loss <;> cases s.filter_win <;> cases s.filter_captures <;>
    cases s.filter_checks <;> cases s.filter_score <;> simp

theorem second_warning_mem_iff (s : parser_settings) :
    "Warning: Captures and in check filtering are not enabled, this will produce terrible data for NNUE\n"
        ∈ warnings_of s
      ↔ s.filter_captures = false ∧ s.filter_checks = false := by
  unfold warnings_of
  cases s.filter_loss <;> cases s.filter_win <;> cases s.filter_captures <;>
    cases s.filter_checks <;> cases s.filter_score <;> simp

theorem mem_convert_file_exists (fs : String → Bool) (input_path output_path : String)
    (om : openmode) (settings : parser_settings) :
    Event.file_exists input_path ∈ convert fs input_path output_path om settings := by
  unfold convert
  split
  · simp
  · split <;> simp

/-- C13: for every accepted token list the open mode passed on is one of append
and truncate; it is append exactly when some token at an index >= 1 is the bare
word `append`, so it is append when `append` appears after the two path tokens
and truncate when no token equals `append`.  The two command lines of the claim
are evaluated: `a.binpack b.bin append --limit-positions 2` gives append,
`games.binpack out.plain --no-filter-in-check` gives truncate. -/
theorem open_mode_spec (args : List String) (warnings : List String) (job : Job)
    (h : front_end args = Outcome.invoked warnings job) :
    (job.om = openmode.app ∨ job.om = openmode.trunc)
    ∧ (job.om = openmode.app ↔ ∃ i, 1 ≤ i ∧ args[i]? = some "append")
    ∧ ((∃ i, 2 ≤ i ∧ args[i]? = some "append") → job.om = openmode.app)
    ∧ ("append" ∉ args → job.om = openmode.trunc)
    ∧ (∃ ws settings, front_end ["a.binpack", "b.bin", "append", "--limit-positions", "2"]
        = Outcome.invoked ws ⟨"a.binpack", "b.bin", openmode.app, settings⟩)
    ∧ (∃ ws settings, front_end ["games.binpack", "out.plain", "--no-filter-in-check"]
        = Outcome.invoked ws ⟨"games.binpack", "out.plain", openmode.trunc, settings⟩) := by
  obtain ⟨_, _, st, ht, _, rfl⟩ := front_end_invoked args warnings job h
  have key : (if st.1 then openmode.app else openmode.trunc) = openmode.app
      ↔ ∃ i, 1 ≤ i ∧ args[i]? = some "append" := by
    rw [← mem_drop_one_iff]
    have := token_loop_append_flag _ _ _ ht
    simp only [Bool.false_eq_true, false_or] at this
    rw [← this]
    cases st.1 <;> simp
  refine ⟨?_, key, ?_, ?_,
    ⟨[], { default_settings with position_limit := true, max_pos_count := 2 }, by decide⟩,
    ⟨[], { default_settings with filter_checks := false }, by decide⟩⟩
  · show (if st.1 then openmode.app else openmode.trunc) = openmode.app
      ∨ (if st.1 then openmode.app else openmode.trunc) = openmode.trunc
    cases st.1 <;> simp
  · rintro ⟨i, h2, hi⟩
    exact key.2 ⟨i, by omega, hi⟩
  · intro hn
    show (if st.1 then openmode.app else openmode.trunc) = openmode.trunc
    have hnot : ¬ ∃ i, 1 ≤ i ∧ args[i]? = some "append" := by
      rintro ⟨i, _, hi⟩
      exact hn (List.mem_iff_getElem?.2 ⟨i, hi⟩)
    rw [← key] at hnot
    revert hnot
    cases st.1 <;> simp

/-- Witness for C13: `a.binpack b.bin append --limit-positions 2` is accepted and
has `append` at index 2, so its open mode is append. -/
theorem open_mode_spec_witness :
    front_end ["a.binpack", "b.bin", "append", "--limit-positions", "2"]
        = Outcome.invoked []
            ⟨"a.binpack", "b.bin", openmode.app,
              { default_settings with position_limit := true, max_pos_count := 2 }⟩
    ∧ ((⟨"a.binpack", "b.bin", openmode.app,
          { default_settings with position_limit := true, max_pos_count := 2 }⟩ : Job).om
        = openmode.app) :=
  ⟨by decide,
    (open_mode_spec ["a.binpack", "b.bin", "append", "--limit-positions", "2"] []
      ⟨"a.binpack", "b.bin", openmode.app,
        { default_settings with position_limit := true, max_pos_count := 2 }⟩
      (by decide)).2.2.1 ⟨2, by decide, by decide⟩⟩

/-- C14 fails as stated: on `a.binpack b.plain` and on `a.binpack b.plain append`
no filter flag is present, the settings are the defaults (capture and check
filtering on), and the front-end prints no warning at all: the test before the
"no filter option was selected" line asks that none of the five filters is
active, and two are. -/
theorem no_flag_no_warning :
    front_end ["a.binpack", "b.plain"]
        = Outcome.invoked [] ⟨"a.binpack", "b.plain", openmode.trunc, default_settings⟩
    ∧ front_end ["a.binpack", "b.plain", "append"]
        = Outcome.invoked [] ⟨"a.binpack", "b.plain", openmode.app, default_settings⟩
    ∧ default_settings.filter_captures = true ∧ default_settings.filter_checks = true
    ∧ (∀ fs, convert_args fs ["a.binpack", "b.plain"]
        = convert fs "a.binpack" "b.plain" openmode.trunc default_settings)
    ∧ (∀ fs, Event.cout "Warning: no filter option was selected\n"
        ∉ convert_args fs ["a.binpack", "b.plain"]) := by
  refine ⟨by decide, by decide, rfl, rfl, ?_, ?_⟩
  · intro fs
    exact convert_args_of_invoked fs _ []
      ⟨"a.binpack", "b.plain", openmode.trunc, default_settings⟩ (by decide)
  · intro fs
    rw [convert_args_of_invoked fs _ []
      ⟨"a.binpack", "b.plain", openmode.trunc, default_settings⟩ (by decide)]
    unfold convert
    split
    · simp
    · split <;> simp

/-- C14, amended: for every accepted command line in which no filter flag is
present (only the two paths, optionally followed by `append`), with settings
starting from their defaults (capture and check filtering default true), no
warning is emitted and the conversion proceeds with the default settings.  The
"no filter option was selected" warning is emitted exactly when none of the
loss, win, capture, check and score filters is active in the resulting
settings, that is when both `--no-filter-captures` and `--no-filter-in-check`
are given and none of `--max-score`, `--filter-win`, `--filter-loss`; the
conversion proceeds then too. -/
theorem first_warning_spec :
    (∀ (inp out : String) (append : Bool), '-' ∉ out.data →
      front_end (inp :: out :: opt_flag append "append")
        = Outcome.invoked []
            ⟨inp, out,
              if append || decide (out = "append") then openmode.app else openmode.trunc,
              default_settings⟩)
    ∧ (∀ (args : List String) (warnings : List String) (job : Job),
      front_end args = Outcome.invoked warnings job →
      ("Warning: no filter option was selected\n" ∈ warnings
          ↔ job.settings.filter_loss = false ∧ job.settings.filter_win = false
            ∧ job.settings.filter_captures = false ∧ job.settings.filter_checks = false
            ∧ job.settings.filter_score = false)
      ∧ ("Warning: no filter option was selected\n" ∈ warnings
          ↔ (∃ i, 1 ≤ i ∧ args[i]? = some "--no-filter-captures")
            ∧ (∃ i, 1 ≤ i ∧ args[i]? = some "--no-filter-in-check")
            ∧ (¬ ∃ i, 1 ≤ i ∧ args[i]? = some "--max-score")
            ∧ (¬ ∃ i, 1 ≤ i ∧ args[i]? = some "--filter-win")
            ∧ (¬ ∃ i, 1 ≤ i ∧ args[i]? = some "--filter-loss"))
      ∧ ∀ fs, convert_args fs args
          = warnings.map Event.cout
            ++ convert fs job.input_path job.output_path job.om job.settings) := by
  constructor
  · intro inp out append hout
    unfold front_end
    have hlen : ¬ ((inp :: out :: opt_flag append "append").length < 2
        ∨ (inp :: out :: opt_flag append "append").length > 10) := by
      cases append <;> simp [opt_flag]
    simp only [Bool.or_eq_true, decide_eq_true_eq, hlen, if_false, List.drop_succ_cons,
      List.drop_zero]
    rw [token_loop_no_dash out _ _ hout]
    have happ := token_loop_opt_append append []
    simp only [List.append_nil] at happ
    rw [happ, token_loop]
    by_cases ha : out = "append"
    · cases append <;> simp [ha, warnings_of, default_settings]
    · cases append <;> simp [ha, warnings_of, default_settings]
  · intro args warnings job h
    have hflags := front_end_filter_flags args warnings job h
    obtain ⟨_, _, st, _, hw, hj⟩ := front_end_invoked args warnings job h
    have hs : job.settings = st.2 := by rw [hj]
    have h1 : "Warning: no filter option was selected\n" ∈ warnings
        ↔ job.settings.filter_loss = false ∧ job.settings.filter_win = false
          ∧ job.settings.filter_captures = false ∧ job.settings.filter_checks = false
          ∧ job.settings.filter_score = false := by
      rw [hw, hs]
      exact first_warning_mem_iff st.2
    refine ⟨h1, ?_, fun fs => convert_args_of_invoked fs args warnings job h⟩
    obtain ⟨c1, c2, c3, c4, c5⟩ := hflags
    have e : ∀ b : Bool, b = false ↔ ¬ (b = true) := by
      intro b
      cases b <;> simp
    rw [h1, e, e, e, e, e, c1, c2, c3, c4, c5]
    constructor
    · rintro ⟨a1, a2, a3, a4, a5⟩
      exact ⟨not_not.1 a3, not_not.1 a4, a5, a2, a1⟩
    · rintro ⟨b1, b2, b3, b4, b5⟩
      exact ⟨b5, b4, not_not.2 b1, not_not.2 b2, b3⟩

/-- Witness for C14 as amended: `a.binpack b.plain append` prints no warning, and
`a.binpack b.plain --no-filter-captures --no-filter-in-check` prints the "no
filter option was selected" warning. -/
theorem first_warning_spec_witness :
    front_end ("a.binpack" :: "b.plain" :: opt_flag true "append")
        = Outcome.invoked []
            ⟨"a.binpack", "b.plain",
              if true || decide ("b.plain" = "append") then openmode.app else openmode.trunc,
              default_settings⟩
    ∧ ("Warning: no filter option was selected\n"
        ∈ ["Warning: no filter option was selected\n",
            "Warning: Captures and in check filtering are not enabled, this will produce terrible data for NNUE\n"]
        ↔ (false = false ∧ false = false ∧ false = false ∧ false = false ∧ false = false)) :=
  ⟨first_warning_spec.1 "a.binpack" "b.plain" true (by decide),
    (first_warning_spec.2
      ["a.binpack", "b.plain", "--no-filter-captures", "--no-filter-in-check"]
      ["Warning: no filter option was selected\n",
        "Warning: Captures and in check filtering are not enabled, this will produce terrible data for NNUE\n"]
      ⟨"a.binpack", "b.plain", openmode.trunc,
        { default_settings with filter_captures := false, filter_checks := false }⟩
      (by decide)).1⟩

/-- C15: for every accepted token list, the second (data-quality) warning is
emitted exactly when neither capture filtering nor check filtering is active in
the resulting settings, that is when both `--no-filter-captures` and
`--no-filter-in-check` were given (at an index >= 1); and in every case, with
or without warnings, the conversion step is invoked after the warnings: its
existence probe of the input path is among the effects. -/
theorem second_warning_spec (args : List String) (warnings : List String) (job : Job)
    (h : front_end args = Outcome.invoked warnings job) :
    ("Warning: Captures and in check filtering are not enabled, this will produce terrible data for NNUE\n"
        ∈ warnings
      ↔ job.settings.filter_captures = false ∧ job.settings.filter_checks = false)
    ∧ ("Warning: Captures and in check filtering are not enabled, this will produce terrible data for NNUE\n"
        ∈ warnings
      ↔ (∃ i, 1 ≤ i ∧ args[i]? = some "--no-filter-captures")
        ∧ (∃ i, 1 ≤ i ∧ args[i]? = some "--no-filter-in-check"))
    ∧ (∀ fs, convert_args fs args
        = warnings.map Event.cout
          ++ convert fs job.input_path job.output_path job.om job.settings)
    ∧ (∀ fs, Event.file_exists job.input_path ∈ convert_args fs args) := by
  have hflags := front_end_filter_flags args warnings job h
  obtain ⟨_, _, st, _, hw, hj⟩ := front_end_invoked args warnings job h
  have hs : job.settings = st.2 := by rw [hj]
  have h1 : "Warning: Captures and in check filtering are not enabled, this will produce terrible data for NNUE\n"
        ∈ warnings
      ↔ job.settings.filter_captures = false ∧ job.settings.filter_checks = false := by
    rw [hw, hs]
    exact second_warning_mem_iff st.2
  refine ⟨h1, ?_, fun fs => convert_args_of_invoked fs args warnings job h, ?_⟩
  · rw [h1, ← Bool.not_eq_true, ← Bool.not_eq_true, hflags.1, hflags.2.1, not_not, not_not]
  · intro fs
    rw [convert_args_of_invoked fs args warnings job h]
    exact List.mem_append_right _ (mem_convert_file_exists fs _ _ _ _)

/-- Witness for C15: `a.binpack b.plain --no-filter-captures --no-filter-in-check
--max-score 100` prints the second warning only, and the conversion step runs. -/
theorem second_warning_spec_witness :
    front_end ["a.binpack", "b.plain", "--no-filter-captures", "--no-filter-in-check",
        "--max-score", "100"]
      = Outcome.invoked
          ["Warning: Captures and in check filtering are not enabled, this will produce terrible data for NNUE\n"]
          ⟨"a.binpack", "b.plain", openmode.trunc,
            { default_settings with
              filter_captures := false, filter_checks := false, filter_score := true,
              max_score := 100 }⟩
    ∧ ∀ fs, Event.file_exists "a.binpack"
        ∈ convert_args fs ["a.binpack", "b.plain", "--no-filter-captures",
            "--no-filter-in-check", "--max-score", "100"] :=
  ⟨by decide,
    (second_warning_spec
      ["a.binpack", "b.plain", "--no-filter-captures", "--no-filter-in-check",
        "--max-score", "100"]
      ["Warning: Captures and in check filtering are not enabled, this will produce terrible data for NNUE\n"]
      ⟨"a.binpack", "b.plain", openmode.trunc,
        { default_settings with
          filter_captures := false, filter_checks := false, filter_score := true,
          max_score := 100 }⟩
      (by decide)).2.2.2⟩

theorem loop_body_none_to_any (tok : String) (st st1 : LoopState)
    (h : loop_body tok none st = Except.ok st1) (next : Option String) :
    loop_body tok next st = Except.ok st1 := by
  rcases loop_body_cases tok none st st1 h with
    ⟨rfl, rfl⟩ | ⟨rfl, n, hs, _, _⟩ | ⟨rfl, rfl⟩ | ⟨rfl, rfl⟩ | ⟨rfl, n, hs, _⟩
      | ⟨rfl, n, hs, _⟩ | ⟨rfl, n, hs, _, _⟩ | ⟨ha, _, hd, rfl⟩
  · simp [loop_body]
  · cases hs
  · simp [loop_body]
  · simp [loop_body]
  · cases hs
  · cases hs
  · cases hs
  · rw [loop_body_no_dash tok next st1 hd, if_neg ha]

theorem token_loop_snoc (toks : List String) (t : String) (st st2 : LoopState)
    (h : token_loop toks st = Except.ok st2) (hd : '-' ∉ t.data) (ha : t ≠ "append") :
    token_loop (toks ++ [t]) st = Except.ok st2 := by
  induction toks generalizing st with
  | nil =>
    simp only [token_loop, Except.ok.injEq] at h
    subst h
    rw [List.nil_append, token_loop_no_dash t [] st hd, if_neg ha, token_loop]
  | cons tok rest ih =>
    obtain ⟨st1, hb, hl⟩ := token_loop_cons_ok tok rest st st2 h
    have hb2 : loop_body tok (rest ++ [t]).head? st = Except.ok st1 := by
      cases rest with
      | nil => exact loop_body_none_to_any tok st st1 hb _
      | cons r rs => exact hb
    rw [List.cons_append, token_loop, hb2]
    exact ih st1 hl

/-- C18: stray trailing tokens are ignored.  For every accepted token list `args`
of fewer than 10 tokens and every token `t` that contains no `-` and is not
`append`, the front-end also accepts `args` followed by `t`, with the same
warnings and the same job (paths, open mode and settings), so the command has
the same effects. -/
theorem trailing_token_ignored (args : List String) (warnings : List String) (job : Job)
    (t : String) (h : front_end args = Outcome.invoked warnings job)
    (hlen : args.length < 10) (hd : '-' ∉ t.data) (ha : t ≠ "append") :
    front_end (args ++ [t]) = Outcome.invoked warnings job
    ∧ ∀ fs, convert_args fs (args ++ [t]) = convert_args fs args := by
  obtain ⟨hl2, _, st, ht, hw, hj⟩ := front_end_invoked args warnings job h
  have hf : front_end (args ++ [t]) = Outcome.invoked warnings job := by
    have hdrop : (args ++ [t]).drop 1 = args.drop 1 ++ [t] :=
      List.drop_append_of_le_length (by omega)
    have h0 : (args ++ [t]).getD 0 "" = args.getD 0 "" := by
      simp only [List.getD_eq_getElem?_getD]
      rw [List.getElem?_append_left (by omega)]
    have h1 : (args ++ [t]).getD 1 "" = args.getD 1 "" := by
      simp only [List.getD_eq_getElem?_getD]
      rw [List.getElem?_append_left (by omega)]
    unfold front_end
    rw [if_neg (by simp; omega), hdrop, token_loop_snoc _ t _ st ht hd ha, h0, h1, hw, hj]
  refine ⟨hf, fun fs => ?_⟩
  rw [convert_args_of_invoked fs _ _ _ hf, convert_args_of_invoked fs _ _ _ h]

/-- Witness for C18: `a.binpack b.plain --max-score 5` followed by the stray
token `extra`. -/
theorem trailing_token_ignored_witness :
    front_end (["a.binpack", "b.plain", "--max-score", "5"] ++ ["extra"])
        = Outcome.invoked []
            ⟨"a.binpack", "b.plain", openmode.trunc,
              { default_settings with filter_score := true, max_score := 5 }⟩
    ∧ ∀ fs, convert_args fs (["a.binpack", "b.plain", "--max-score", "5"] ++ ["extra"])
        = convert_args fs ["a.binpack", "b.plain", "--max-score", "5"] :=
  trailing_token_ignored ["a.binpack", "b.plain", "--max-score", "5"] []
    ⟨"a.binpack", "b.plain", openmode.trunc,
      { default_settings with filter_score := true, max_score := 5 }⟩
    "extra" (by decide) (by decide) (by decide) (by decide)

/-! ## The streaming converters -/

theorem stream_records_no_limit (s : parser_settings) (h : s.position_limit = false)
    (input : List Record) (emitted : Int) :
    stream_records s input emitted = input.filter (passes_filters s) := by
  induction input generalizing emitted with
  | nil => rfl
  | cons r rest ih =>
    unfold stream_records
    by_cases hp : passes_filters s r = true
    · simp [hp, h, ih]
    · simp [hp, ih]

theorem stream_records_limit (s : parser_settings) (h : s.position_limit = true)
    (input : List Record) (emitted : Int) (hlt : emitted < s.max_pos_count) :
    stream_records s input emitted
      = (input.filter (passes_filters s)).take (s.max_pos_count - emitted).toNat := by
  induction input generalizing emitted with
  | nil => simp [stream_records]
  | cons r rest ih =>
    unfold stream_records
    by_cases hp : passes_filters s r = true
    · by_cases hc : s.max_pos_count ≤ emitted + 1
      · have h1 : (s.max_pos_count - emitted).toNat = 1 := by omega
        simp [hp, h, hc, h1]
      · have h1 : (s.max_pos_count - emitted).toNat
            = (s.max_pos_count - (emitted + 1)).toNat + 1 := by omega
        simp [hp, h, hc, h1, ih (emitted + 1) (by omega)]
    · simp [hp, ih emitted hlt]

theorem stream_records_sound (s : parser_settings) (input : List Record) (emitted : Int)
    (r : Record) (hr : r ∈ stream_records s input emitted) :
    r ∈ input ∧ passes_filters s r = true := by
  induction input generalizing emitted with
  | nil => simp [stream_records] at hr
  | cons x rest ih =>
    unfold stream_records at hr
    by_cases hp : passes_filters s x = true
    · rw [if_pos hp] at hr
      split at hr
      · simp only [List.mem_singleton] at hr
        subst hr
        exact ⟨List.mem_cons_self _ _, hp⟩
      · rcases List.mem_cons.1 hr with rfl | hm
        · exact ⟨List.mem_cons_self _ _, hp⟩
        · exact ⟨List.mem_cons_of_mem _ (ih _ hm).1, (ih _ hm).2⟩
    · rw [if_neg hp] at hr
      exact ⟨List.mem_cons_of_mem _ (ih _ hr).1, (ih _ hr).2⟩

theorem encode_injective (func : ConvertFunction) (r1 r2 : Record)
    (h : encode func r1 = encode func r2) : r1 = r2 := by
  cases func <;> simpa [encode] using h

theorem mem_converter_output (func : ConvertFunction) (s : parser_settings)
    (input : List Record) (r : Record) :
    encode func r ∈ converter_output func s input ↔ r ∈ stream_records s input 0 := by
  unfold converter_output
  rw [List.mem_map]
  constructor
  · rintro ⟨x, hx, he⟩
    rw [← encode_injective func x r he]
    exact hx
  · intro hr
    exact ⟨r, hr, rfl⟩

/-- C17 fails as stated (against the converters modelled from the spec): with the
position limit enabled at 1 and two records that both pass every enabled
filter, the second record passes and is not in the output of either converter:
the stream terminates once the emitted count reaches the limit. -/
theorem position_limit_drops_passing_record :
    passes_filters { default_settings with position_limit := true, max_pos_count := 1 }
        ⟨"p2", "d4xe5", 5, GameOutcome.draw, true, false⟩ = true
    ∧ Encoded.plain ⟨"p2", "d4xe5", 5, GameOutcome.draw, true, false⟩
        ∉ converter_output ConvertFunction.convertBinpackToPlain
            { default_settings with position_limit := true, max_pos_count := 1 }
            [⟨"p1", "e4xd5", 10, GameOutcome.win, true, false⟩,
              ⟨"p2", "d4xe5", 5, GameOutcome.draw, true, false⟩]
    ∧ Encoded.bin ⟨"p2", "d4xe5", 5, GameOutcome.draw, true, false⟩
        ∉ converter_output ConvertFunction.convertBinpackToBin
            { default_settings with position_limit := true, max_pos_count := 1 }
            [⟨"p1", "e4xd5", 10, GameOutcome.win, true, false⟩,
              ⟨"p2", "d4xe5", 5, GameOutcome.draw, true, false⟩] := by
  refine ⟨by decide, by decide, by decide⟩

/-- C17, amended (against the converters modelled from the spec): for every
packed input stream, every settings value and both converters: when the
position limit is not enabled, the output is the sequence of the input records
that pass every enabled filter predicate (capture, check, score, win, loss), so
a record appears in the output if and only if it is in the input and passes
them; when the position limit is enabled (with `maxPosCount > 0`), the output
is the first `maxPosCount` of those records; in every case a record in the
output is an input record that passes every enabled filter predicate. -/
theorem converter_output_spec (func : ConvertFunction) (s : parser_settings)
    (input : List Record) :
    (s.position_limit = false →
      converter_output func s input
        = (input.filter (passes_filters s)).map (encode func)
      ∧ ∀ r, encode func r ∈ converter_output func s input
          ↔ r ∈ input ∧ passes_filters s r = true)
    ∧ (s.position_limit = true → 0 < s.max_pos_count →
      converter_output func s input
        = ((input.filter (passes_filters s)).take s.max_pos_count.toNat).map (encode func))
    ∧ (∀ r, encode func r ∈ converter_output func s input →
        r ∈ input ∧ passes_filters s r = true) := by
  refine ⟨?_, ?_, ?_⟩
  · intro h
    constructor
    · unfold converter_output
      rw [stream_records_no_limit s h]
    · intro r
      rw [mem_converter_output, stream_records_no_limit s h, List.mem_filter]
  · intro h hpos
    unfold converter_output
    rw [stream_records_limit s h input 0 hpos]
    simp
  · intro r hr
    rw [mem_converter_output] at hr
    exact stream_records_sound s input 0 r hr

/-- Witness for C17 as amended: the scenario of the spec, three records
(capture, no check, score 10; no capture, no check, score 5; capture, check,
score 20) under `--no-filter-in-check`: the output holds the first and the
third record; and with the position limit 1 only the first. -/
theorem converter_output_spec_witness :
    converter_output ConvertFunction.convertBinpackToPlain
        { default_settings with filter_checks := false }
        [⟨"p1", "m1", 10, GameOutcome.draw, true, false⟩,
          ⟨"p2", "m2", 5, GameOutcome.draw, false, false⟩,
          ⟨"p3", "m3", 20, GameOutcome.draw, true, true⟩]
      = [Encoded.plain ⟨"p1", "m1", 10, GameOutcome.draw, true, false⟩,
          Encoded.plain ⟨"p3", "m3", 20, GameOutcome.draw, true, true⟩]
    ∧ converter_output ConvertFunction.convertBinpackToBin
        { default_settings with filter_checks := false, position_limit := true,
                                max_pos_count := 1 }
        [⟨"p1", "m1", 10, GameOutcome.draw, true, false⟩,
          ⟨"p2", "m2", 5, GameOutcome.draw, false, false⟩,
          ⟨"p3", "m3", 20, GameOutcome.draw, true, true⟩]
      = [Encoded.bin ⟨"p1", "m1", 10, GameOutcome.draw, true, false⟩] :=
  ⟨((converter_output_spec ConvertFunction.convertBinpackToPlain
        { default_settings with filter_checks := false }
        [⟨"p1", "m1", 10, GameOutcome.draw, true, false⟩,
          ⟨"p2", "m2", 5, GameOutcome.draw, false, false⟩,
          ⟨"p3", "m3", 20, GameOutcome.draw, true, true⟩]).1 rfl).1.trans (by decide),
    ((converter_output_spec ConvertFunction.convertBinpackToBin
        { default_settings with filter_checks := false, position_limit := true,
                                max_pos_count := 1 }
        [⟨"p1", "m1", 10, GameOutcome.draw, true, false⟩,
          ⟨"p2", "m2", 5, GameOutcome.draw, false, false⟩,
          ⟨"p3", "m3", 20, GameOutcome.draw, true, true⟩]).2.1 rfl (by decide)).trans
      (by decide)⟩

end Stockfish.Tools
